import Mathlib

/-!
# Verification of the observation aggregation engine (`src/codigo.py`)

Shallow embedding of the data-handling core of the dashboard: the loaded
Google-Sheets tables (`sheets_data`), the date filtering, the per-minute
deduplication, and the aggregation / trend functions
(`get_event_stats`, `get_latest_species`, `get_latest_checklists`,
`get_top_species`, `get_top_observers`, `get_top_observers_by_lists`,
`get_all_species`, `get_daily_trend`, `get_monthly_checklists_history`).

Modelling conventions
* A pandas `DataFrame` becomes a `Table`: a list of `Row`s plus one boolean
  per optional column recording whether that column exists, plus the dtype
  of the `obsDt` column (string vs. datetime64).
* A cell that may be missing (pandas `NaN`) is an `Option`.  The numpy `NaN`
  placeholder is modelled as a single distinguished value (`none`), matching
  the `np.nan` singleton produced by `pd.read_csv`.
* `pd.to_datetime(col, errors='coerce')` is modelled abstractly: a timestamp
  cell is either text that parses to an instant or text that does not
  (`TsText`); coercion maps the latter to `NaT` (`none`).  Likewise
  `pd.to_numeric(col, errors='coerce')` over the `taxonOrder` column
  (`NumText`).
* Timestamps are naive wall-clock instants; `month` is an absolute month
  index (`year*12 + month`), so truncation to minute / day / month is
  dropping trailing fields.
* In-place column mutation (`df['obsDt'] = pd.to_datetime(df['obsDt'],...)`
  on a table held in `sheets_data`) is modelled by having the function
  return the updated `Sheets` value alongside its result.
* `pandas` sorts (`sort_values`, `value_counts`) are modelled as stable
  sorts; `groupby` key enumeration is modelled as sorted where a proved
  property depends on key order (observer rankings) and as first-encounter
  order elsewhere, where an explicit later sort determines every ordering
  property stated here.
-/

/-- A naive wall-clock instant.  `month` is an absolute month index
(`year*12 + month-of-year`), so all truncations used by the code
(minute bucket, calendar day, calendar month) are prefixes of the fields. -/
structure Instant where
  month : Nat
  day : Nat
  hour : Nat
  minute : Nat
  second : Nat
deriving DecidableEq, Repr

/-- Encode an instant as a number of seconds for comparisons and for the
truncation keys (valid instants have `day < 32`, `hour < 24`,
`minute, second < 60`). -/
def Instant.toNat (t : Instant) : Nat :=
  t.second + 60 * (t.minute + 60 * (t.hour + 24 * (t.day + 32 * t.month)))

/-- Timestamp comparison (`<=` on naive datetimes). -/
def Instant.ble (a b : Instant) : Bool :=
  Nat.ble a.toNat b.toNat

/-- The minute bucket of an instant: `strftime('%Y-%m-%d %H:%M')`. -/
def Instant.minuteKey (t : Instant) : Nat := t.toNat / 60

/-- The calendar day of an instant: `.dt.date`. -/
def Instant.dayKey (t : Instant) : Nat := t.toNat / 86400

/-- The text of a timestamp cell, as seen by `pd.to_datetime(·, errors='coerce')`:
either text that parses to an instant or text that does not. -/
inductive TsText where
  | parsesTo (t : Instant)
  | unparseable (s : String)
deriving DecidableEq, Repr

/-- `pd.to_datetime(·, errors='coerce')` on one cell: unparseable text
becomes `NaT` (`none`). -/
def parseTs : TsText → Option Instant
  | .parsesTo t => some t
  | .unparseable _ => none

/-- The text of a `taxonOrder` cell, as seen by
`pd.to_numeric(·, errors='coerce')`. -/
inductive NumText where
  | num (q : Int)
  | nonNum (s : String)
deriving DecidableEq, Repr

/-- `pd.to_numeric(·, errors='coerce')` on one cell: non-numeric text
becomes `NaN` (`none`). -/
def NumText.toNum : NumText → Option Int
  | .num q => some q
  | .nonNum _ => none

/-- One row of a loaded sheet.  Optional cells (`Option`) model pandas `NaN`.
`obsDtText` is the content of the `obsDt` cell while the column is
string-typed; `obsDtParsed` is its content once the column has been
converted to datetime64 (`none` = `NaT`). -/
structure Row where
  speciesCode : Option String
  commonName : Option String
  obsDtText : TsText
  obsDtParsed : Option Instant
  subId : Option String
  userDisplayName : Option String
  scientificName : Option String
  familySciName : Option String
  taxonOrder : Option NumText
deriving DecidableEq, Repr

/-- A loaded sheet (`DataFrame`): which columns exist, the dtype of the
`obsDt` column, and the rows in original order. -/
structure Table where
  hasSpeciesCode : Bool
  hasCommonName : Bool
  hasObsDt : Bool
  hasSubId : Bool
  hasUserDisplayName : Bool
  hasScientificName : Bool
  hasFamilySciName : Bool
  hasTaxonOrder : Bool
  obsDtIsString : Bool
  rows : List Row
deriving DecidableEq, Repr

/-- The empty `pd.DataFrame()` returned by the degraded paths. -/
def Table.empty : Table :=
  ⟨false, false, false, false, false, false, false, false, false, []⟩

/-- The snapshot of loaded sheets (`sheets_data`), one optional table per
sheet name the code asks for (`species_list_L2015671` is loaded but never
read by the functions modelled here, so it is omitted). -/
structure Sheets where
  checklists_compilados : Option Table
  checklists_L2015671 : Option Table
  observations_L2015671 : Option Table
  checklist_feed : Option Table
deriving DecidableEq, Repr

/-- `df['obsDt'] = pd.to_datetime(df['obsDt'], errors='coerce')`, guarded by
`is_string_dtype`: converts the timestamp column in place when it is
string-typed, otherwise leaves the table untouched. -/
def Table.convertObsDt (t : Table) : Table :=
  if t.obsDtIsString then
    { t with obsDtIsString := false,
             rows := t.rows.map fun r => { r with obsDtParsed := parseTs r.obsDtText } }
  else t

/-- The window mask `(df['obsDt'] >= start) & (df['obsDt'] <= end)` on one
row of a datetime-typed column; `NaT` compares false on both sides. -/
def rowInWindow (s e : Instant) (r : Row) : Bool :=
  match r.obsDtParsed with
  | some t => s.ble t && t.ble e
  | none => false

/-- `df[mask]` for the inclusive window mask. -/
def Table.maskRows (t : Table) (s e : Instant) : List Row :=
  t.rows.filter (rowInWindow s e)

/-- `filter_data_by_date` (src/codigo.py:98-120): empty result when the
frame is empty or has no `obsDt` column; otherwise works on a copy,
coerces a string-typed `obsDt` to datetime and keeps the rows inside the
inclusive window.  The input table is never modified. -/
def filter_data_by_date (df : Table) (s e : Instant) : Table :=
  if df.rows.isEmpty || !df.hasObsDt then Table.empty
  else
    let c := df.convertObsDt
    { c with rows := c.rows.filter (rowInWindow s e) }

/-- `f"{value}"` on a possibly-missing cell: `NaN` renders as `"nan"`. -/
def render : Option String → String
  | some s => s
  | none => "nan"

/-- The minute-bucket key of a row's timestamp cell used by the
deduplication steps (`strftime('%Y-%m-%d %H:%M')`).  The `NaT` case is a
sentinel: the code only reaches the key computation on rows that passed
the window mask, which excludes `NaT`. -/
def minuteKeyNat (r : Row) : Nat :=
  match r.obsDtParsed with
  | some t => t.minuteKey
  | none => 0

/-- Timestamp of a row as a number, for the `sort_values('obsDt', ...)`
calls (rows reaching a sort have passed the mask, so `none` cannot occur). -/
def rowDtNat (r : Row) : Nat :=
  match r.obsDtParsed with
  | some t => t.toNat
  | none => 0

/-- `drop_duplicates(subset=...)` keep-first semantics: keep the first row
per key, preserving order.  `seen` is the set of keys already kept. -/
def dedupByAux {α K : Type} [DecidableEq K] (k : α → K) : List α → List K → List α
  | [], _ => []
  | a :: l, seen =>
    if k a ∈ seen then dedupByAux k l seen
    else a :: dedupByAux k l (k a :: seen)

/-- `drop_duplicates(subset=...)`: keep exactly the first-encountered row
per key, in input order. -/
def dedupBy {α K : Type} [DecidableEq K] (k : α → K) (l : List α) : List α :=
  dedupByAux k l []

/-- Distinct values of a column in first-encounter order
(`Series.unique()` / the keys of a Python `set` built by insertion). -/
def distinctL {α : Type} [DecidableEq α] (l : List α) : List α :=
  dedupBy id l

/-- Python `set.add`: insert if absent (accumulating first-encounter order). -/
def insertSet {α : Type} [DecidableEq α] (x : α) (acc : List α) : List α :=
  if x ∈ acc then acc else acc ++ [x]

/-- Stable insertion for `insSort`: `a` goes before the first element it
may precede (`le a b = true`), so ties keep their original relative order. -/
def ins {α : Type} (le : α → α → Bool) (a : α) : List α → List α
  | [] => [a]
  | b :: l => if le a b then a :: b :: l else b :: ins le a l

/-- Stable sort modelling the pandas sorts (`sort_values`, the descending
sort inside `value_counts`). -/
def insSort {α : Type} (le : α → α → Bool) : List α → List α
  | [] => []
  | a :: l => ins le a (insSort le l)

/-- Comparator for count-descending ranking order. -/
def cntDescLe (p q : String × Nat) : Bool := Nat.ble q.2 p.2

/-- Comparator for alphabetical `groupby` key order (lexicographic string
order, expressed on the character lists — `String.le_iff_toList_le` —
so that it evaluates on concrete data). -/
def strLe (a b : String) : Bool := decide (a.toList ≤ b.toList)

/-- `Series.value_counts()`: occurrence counts of the non-missing values,
keys in first-encounter order, then stably sorted by count descending. -/
def valueCounts (l : List String) : List (String × Nat) :=
  insSort cntDescLe ((distinctL l).map fun x => (x, l.count x))

/-- The species loop of `get_event_stats` (src/codigo.py:160-185): walk the
filtered rows; on each row whose `(species rendered, minute bucket)` key is
new, record the key and add the raw species cell to the `unique_species`
set (`acc`, kept in insertion order). -/
def statsSpecies (spOf : Row → Option String) :
    List Row → List (String × Nat) → List (Option String) → List (Option String)
  | [], _, acc => acc
  | r :: l, seen, acc =>
    let k := (render (spOf r), minuteKeyNat r)
    if k ∈ seen then statsSpecies spOf l seen acc
    else statsSpecies spOf l (k :: seen) (insertSet (spOf r) acc)

/-- The three counters produced by `get_event_stats`. -/
structure EventStats where
  especies : Nat
  listas : Nat
  observadores : Nat
deriving DecidableEq, Repr

/-- `get_event_stats` (src/codigo.py:123-204).  Only the
`checklists_compilados` branch is live (the commented-out remainder of the
function is noted dead at src/codigo.py:196-197).  The timestamp column of
the shared table is converted **in place** when string-typed
(src/codigo.py:144-147), so the function returns the updated snapshot. -/
def get_event_stats (sh : Sheets) (s e : Instant) : EventStats × Sheets :=
  match sh.checklists_compilados with
  | none => (⟨0, 0, 0⟩, sh)
  | some df0 =>
    let df := if df0.hasObsDt then df0.convertObsDt else df0
    let sh' := { sh with checklists_compilados := some df }
    let filtered := if df.hasObsDt && !df.obsDtIsString then df.maskRows s e else df.rows
    let sp :=
      if df.hasSpeciesCode then statsSpecies (fun r => r.speciesCode) filtered [] []
      else if df.hasCommonName then statsSpecies (fun r => r.commonName) filtered [] []
      else []
    let listas := if df.hasSubId then (distinctL (filtered.map fun r => r.subId)).length else 0
    let obsrv :=
      if df.hasUserDisplayName then (distinctL (filtered.map fun r => r.userDisplayName)).length
      else 0
    (⟨sp.length, listas, obsrv⟩, sh')

/-- Source-table priority shared by the observation-oriented functions:
`checklists_compilados`, else `observations_L2015671`. -/
def obsSource (sh : Sheets) : Option Table :=
  match sh.checklists_compilados with
  | some t => some t
  | none => sh.observations_L2015671

/-- Source-table priority of the checklist-oriented functions:
`checklists_compilados`, else `checklists_L2015671`. -/
def listsSource (sh : Sheets) : Option Table :=
  match sh.checklists_compilados with
  | some t => some t
  | none => sh.checklists_L2015671

/-- The species-identity column selection used by most functions:
`commonName` if present, else `speciesCode`, else unresolved. -/
def speciesSel (t : Table) : Option (Row → Option String) :=
  if t.hasCommonName then some fun r => r.commonName
  else if t.hasSpeciesCode then some fun r => r.speciesCode
  else none

/-- Shared core of `get_latest_species` (src/codigo.py:207-263): the column
checks happen before the in-place datetime conversion, so the early empty
returns leave the table untouched.  The final column projection/renaming
(src/codigo.py:247-262) only shapes the display and is omitted: the model
returns the selected rows whole. -/
def latestSpeciesCore (df : Table) (s e : Instant) (limit : Nat) : List Row × Table :=
  if !df.hasObsDt then ([], df)
  else
    match speciesSel df with
    | none => ([], df)
    | some _ =>
      let d := df.convertObsDt
      let filtered := filter_data_by_date d s e
      if filtered.rows.isEmpty then ([], d)
      else ((insSort (fun a b => Nat.ble (rowDtNat b) (rowDtNat a)) filtered.rows).take limit, d)

/-- `get_latest_species` with its source priority and in-place conversion
written back to the snapshot slot the table came from. -/
def get_latest_species (sh : Sheets) (s e : Instant) (limit : Nat) : List Row × Sheets :=
  match sh.checklists_compilados with
  | some df =>
    let p := latestSpeciesCore df s e limit
    (p.1, { sh with checklists_compilados := some p.2 })
  | none =>
    match sh.observations_L2015671 with
    | some df =>
      let p := latestSpeciesCore df s e limit
      (p.1, { sh with observations_L2015671 := some p.2 })
    | none => ([], sh)

/-- The `groupby(['subId', 'obsDt', 'userDisplayName'])` key of one row in
`get_latest_checklists`; rows with a missing key component are dropped by
`groupby`. -/
def clKeyOf (effUser : Row → Option String) (r : Row) : Option (String × Instant × String) := do
  let sid ← r.subId
  let t ← r.obsDtParsed
  let u ← effUser r
  pure (sid, t, u)

/-- Comparator for `sort_values('obsDt', ascending=False)` on the grouped
checklist entries. -/
def entDtDescLe (a b : String × Instant × String × Nat) : Bool :=
  Nat.ble b.2.1.toNat a.2.1.toNat

/-- Shared core of `get_latest_checklists` (src/codigo.py:266-318): column
checks, in-place conversion, window mask (applied only on a datetime-typed
column, src/codigo.py:294-299), the `"Observador"` placeholder when the
observer column is absent (src/codigo.py:306-307), the
`(subId, obsDt, userDisplayName)` grouping with group sizes, sort by
timestamp descending, truncation.  Group keys are modelled in
first-encounter order (pandas emits them sorted; the subsequent
`sort_values` determines every ordering property proved here). -/
def latestChecklistsCore (df : Table) (s e : Instant) (limit : Nat) :
    List (String × Instant × String × Nat) × Table :=
  if !(df.hasObsDt && df.hasSubId) then ([], df)
  else
    let d := df.convertObsDt
    let filtered := if !d.obsDtIsString then d.rows.filter (rowInWindow s e) else d.rows
    if filtered.isEmpty then ([], d)
    else
      let effUser : Row → Option String :=
        if d.hasUserDisplayName then (fun r => r.userDisplayName) else (fun _ => some "Observador")
      let ks := filtered.filterMap (clKeyOf effUser)
      let entries := (distinctL ks).map fun k => (k.1, k.2.1, k.2.2, ks.count k)
      ((insSort entDtDescLe entries).take limit, d)

/-- `get_latest_checklists` with its source priority
(`checklists_compilados`, else `observations_L2015671`, else the checklist
feed) and in-place conversion written back to the originating slot. -/
def get_latest_checklists (sh : Sheets) (s e : Instant) (limit : Nat) :
    List (String × Instant × String × Nat) × Sheets :=
  match sh.checklists_compilados with
  | some df =>
    let p := latestChecklistsCore df s e limit
    (p.1, { sh with checklists_compilados := some p.2 })
  | none =>
    match sh.observations_L2015671 with
    | some df =>
      let p := latestChecklistsCore df s e limit
      (p.1, { sh with observations_L2015671 := some p.2 })
    | none =>
      match sh.checklist_feed with
      | some df =>
        let p := latestChecklistsCore df s e limit
        (p.1, { sh with checklist_feed := some p.2 })
      | none => ([], sh)

/-- The deduplicated species values feeding `value_counts` in
`get_top_species` (src/codigo.py:323-366): source priority, column checks,
window filter (on a copy — the source table is not modified here), then
`drop_duplicates(subset=[species_col, 'time_key'])` and the species column
of the surviving rows (`value_counts` drops the missing values). -/
def topSpeciesPool (sh : Sheets) (s e : Instant) : List String :=
  match obsSource sh with
  | none => []
  | some df =>
    if !df.hasObsDt then []
    else
      match speciesSel df with
      | none => []
      | some spOf =>
        let filtered := filter_data_by_date df s e
        if filtered.rows.isEmpty then []
        else (dedupBy (fun r => (spOf r, minuteKeyNat r)) filtered.rows).filterMap spOf

/-- `get_top_species` (src/codigo.py:323-372): occurrence counts of the
deduplicated species, ranked descending, truncated. -/
def get_top_species (sh : Sheets) (s e : Instant) (limit : Nat) : List (String × Nat) :=
  (valueCounts (topSpeciesPool sh s e)).take limit

/-- `get_top_observers` (src/codigo.py:376-415).  With a species column:
distinct species per observer (`groupby('userDisplayName')[col].nunique()`,
group keys sorted alphabetically, missing species dropped by `nunique`),
ranked descending.  Without one: the substitute computation of
src/codigo.py:403-406 — plain row counts per observer. -/
def get_top_observers (sh : Sheets) (s e : Instant) (limit : Nat) : List (String × Nat) :=
  match obsSource sh with
  | none => []
  | some df =>
    if !(df.hasObsDt && df.hasUserDisplayName) then []
    else
      let filtered := filter_data_by_date df s e
      if filtered.rows.isEmpty then []
      else
        let cntCol : Option (Row → Option String) :=
          if filtered.hasSpeciesCode then some fun r => r.speciesCode
          else if filtered.hasCommonName then some fun r => r.commonName
          else none
        match cntCol with
        | none =>
          (insSort cntDescLe (valueCounts (filtered.rows.filterMap fun r =>
            r.userDisplayName))).take limit
        | some cnt =>
          let users := insSort strLe (distinctL (filtered.rows.filterMap fun r =>
            r.userDisplayName))
          let counts := users.map fun u =>
            (u, (distinctL ((filtered.rows.filter fun r =>
                  r.userDisplayName == some u).filterMap cnt)).length)
          (insSort cntDescLe counts).take limit

/-- `get_top_observers_by_lists` (src/codigo.py:418-448): distinct
`(observer, checklist)` pairs, then distinct-checklist counts per observer
(group keys alphabetical), ranked descending, truncated. -/
def get_top_observers_by_lists (sh : Sheets) (s e : Instant) (limit : Nat) :
    List (String × Nat) :=
  match listsSource sh with
  | none => []
  | some df =>
    if !(df.hasObsDt && df.hasUserDisplayName && df.hasSubId) then []
    else
      let filtered := filter_data_by_date df s e
      if filtered.rows.isEmpty then []
      else
        let pairs := distinctL (filtered.rows.filterMap fun r =>
          match r.userDisplayName, r.subId with
          | some u, some sid => some (u, sid)
          | _, _ => none)
        let users := insSort strLe (distinctL (pairs.map Prod.fst))
        let counts := users.map fun u => (u, (pairs.filter fun p => p.1 == u).length)
        (insSort cntDescLe counts).take limit

/-- The `groupby` key of one species-catalog entry in `get_all_species`:
the species label plus scientific name / family / taxon order when those
columns exist.  A `none` component at an existing column means the cell is
missing and `groupby` drops the row. -/
structure CatKey where
  nome : String
  sci : Option String
  fam : Option String
  tax : Option NumText
deriving DecidableEq, Repr

/-- Include a cell in the grouping key only when its column exists; a
missing cell of an existing column drops the row (pandas `groupby` default
`dropna`). -/
def reqIf {β : Type} (b : Bool) (o : Option β) : Option (Option β) :=
  if b then o.map some else some none

/-- The grouping key of one row in `get_all_species`
(`columns_to_group`, src/codigo.py:554-584). -/
def catKeyOf (df : Table) (spOf : Row → Option String) (r : Row) : Option CatKey := do
  let nome ← spOf r
  let sci ← reqIf df.hasScientificName r.scientificName
  let fam ← reqIf df.hasFamilySciName r.familySciName
  let tax ← reqIf df.hasTaxonOrder r.taxonOrder
  pure ⟨nome, sci, fam, tax⟩

/-- Ascending order with `NaN` last: the behaviour of
`sort_values('taxonOrder')` after `pd.to_numeric(·, errors='coerce')`. -/
def optIntLe : Option Int → Option Int → Bool
  | some a, some b => decide (a ≤ b)
  | some _, none => true
  | none, some _ => false
  | none, none => true

/-- Catalog comparator: numeric `taxonOrder` ascending, unparseable last. -/
def taxLe (p q : CatKey × Nat) : Bool :=
  optIntLe (p.1.tax.bind NumText.toNum) (q.1.tax.bind NumText.toNum)

/-- Catalog comparator: species label ascending
(`sort_values('Nome Comum')`), on character lists as in `strLe`. -/
def nameLe (p q : CatKey × Nat) : Bool := strLe p.1.nome q.1.nome

/-- `get_all_species` (src/codigo.py:516-619): filter to the window (on a
copy), deduplicate per `(species, minute)`, group by the available
identity columns with group sizes, then sort: by coerced-numeric
`taxonOrder` when that column exists (the `except` fallback of
src/codigo.py:612-614 is unreachable because `errors='coerce'` never
raises — unparseable values become `NaN` and sort last), else
alphabetically by the species label.  Group keys are modelled in
first-encounter order; the final explicit sort determines every ordering
property proved here. -/
def get_all_species (sh : Sheets) (s e : Instant) : List (CatKey × Nat) :=
  match obsSource sh with
  | none => []
  | some df =>
    if !df.hasObsDt then []
    else
      let filtered := filter_data_by_date df s e
      if filtered.rows.isEmpty then []
      else
        match speciesSel filtered with
        | none => []
        | some spOf =>
          let uniq := dedupBy (fun r => (spOf r, minuteKeyNat r)) filtered.rows
          let ks := uniq.filterMap (catKeyOf filtered spOf)
          let groups := (distinctL ks).map fun g => (g, ks.count g)
          if filtered.hasTaxonOrder then insSort taxLe groups
          else insSort nameLe groups

/-- `get_daily_trend` (src/codigo.py:622-672): group the window-filtered
rows by calendar day (group keys sorted ascending, as `groupby` emits
them); per day, distinct species (`nunique`, missing dropped) — preferring
`speciesCode` here — and the raw row count; without a species column the
substitute of src/codigo.py:655-660 emits a zero species placeholder. -/
def get_daily_trend (sh : Sheets) (s e : Instant) : List (Nat × Nat × Nat) :=
  match obsSource sh with
  | none => []
  | some df =>
    if !df.hasObsDt then []
    else
      let filtered := filter_data_by_date df s e
      if filtered.rows.isEmpty then []
      else
        let dayOf : Row → Nat := fun r => rowDtNat r / 86400
        let days := insSort Nat.ble (distinctL (filtered.rows.map dayOf))
        if filtered.hasSpeciesCode then
          days.map fun d => (d,
            (distinctL ((filtered.rows.filter fun r =>
              dayOf r == d).filterMap fun r => r.speciesCode)).length,
            (filtered.rows.filter fun r => dayOf r == d).length)
        else if filtered.hasCommonName then
          days.map fun d => (d,
            (distinctL ((filtered.rows.filter fun r =>
              dayOf r == d).filterMap fun r => r.commonName)).length,
            (filtered.rows.filter fun r => dayOf r == d).length)
        else
          days.map fun d => (d, 0, (filtered.rows.filter fun r => dayOf r == d).length)

/-- Shared core of `get_monthly_checklists_history` (src/codigo.py:722-784):
column checks, in-place conversion, then — over **all** rows, with no
window filter — the distinct `(calendar month, subId)` pairs
(`drop_duplicates(['month_year', 'subId'])`), counted per month
(`groupby('month_year')`, dropping the `NaT` month), aligned onto the
gap-filled month range `endMonth - monthsBack .. endMonth` with zeros for
absent months, in chronological order.  Months are absolute month
indices; the `'%b/%Y'` display label is omitted. -/
def monthlyCore (df : Table) (endMonth monthsBack : Nat) : List (Nat × Nat) × Table :=
  if !(df.hasObsDt && df.hasSubId) then ([], df)
  else
    let d := df.convertObsDt
    let pairs := distinctL (d.rows.map fun r => (r.obsDtParsed.map Instant.month, r.subId))
    let start := endMonth - monthsBack
    ((List.range (monthsBack + 1)).map fun i =>
        (start + i, (pairs.filter fun p => p.1 == some (start + i)).length), d)

/-- `get_monthly_checklists_history` with its source priority
(`checklists_compilados`, else `checklists_L2015671`) and in-place
conversion written back to the originating slot. -/
def get_monthly_checklists_history (sh : Sheets) (endMonth monthsBack : Nat) :
    List (Nat × Nat) × Sheets :=
  match sh.checklists_compilados with
  | some df =>
    let p := monthlyCore df endMonth monthsBack
    (p.1, { sh with checklists_compilados := some p.2 })
  | none =>
    match sh.checklists_L2015671 with
    | some df =>
      let p := monthlyCore df endMonth monthsBack
      (p.1, { sh with checklists_L2015671 := some p.2 })
    | none => ([], sh)

/-- Validity of a row's timestamp cell under the current dtype of the
column: for a string column, whether the text parses; for a datetime
column, whether the value is not `NaT`. -/
def rowValid (isStr : Bool) (r : Row) : Bool :=
  if isStr then (parseTs r.obsDtText).isSome else r.obsDtParsed.isSome

/-- The table with its invalid-timestamp rows removed (used to state that
those rows never influence a result). -/
def Table.dropInvalid (t : Table) : Table :=
  { t with rows := t.rows.filter (rowValid t.obsDtIsString) }

/-- Rows equal on every cell except the timestamp's parsed value: what an
in-place `pd.to_datetime` conversion may change. -/
def rowTsEquiv (r r' : Row) : Prop :=
  r.speciesCode = r'.speciesCode ∧ r.commonName = r'.commonName ∧
  r.obsDtText = r'.obsDtText ∧ r.subId = r'.subId ∧
  r.userDisplayName = r'.userDisplayName ∧ r.scientificName = r'.scientificName ∧
  r.familySciName = r'.familySciName ∧ r.taxonOrder = r'.taxonOrder

/-- Tables equal except possibly for the dtype of the timestamp column and
the parsed timestamp values: same columns, same number of rows, every other
cell unchanged. -/
def tableTsEquiv (t t' : Table) : Prop :=
  t.hasSpeciesCode = t'.hasSpeciesCode ∧ t.hasCommonName = t'.hasCommonName ∧
  t.hasObsDt = t'.hasObsDt ∧ t.hasSubId = t'.hasSubId ∧
  t.hasUserDisplayName = t'.hasUserDisplayName ∧
  t.hasScientificName = t'.hasScientificName ∧
  t.hasFamilySciName = t'.hasFamilySciName ∧ t.hasTaxonOrder = t'.hasTaxonOrder ∧
  List.Forall₂ rowTsEquiv t.rows t'.rows

/-- `tableTsEquiv` lifted to an optional snapshot slot. -/
def optTableTsEquiv : Option Table → Option Table → Prop
  | none, none => True
  | some a, some b => tableTsEquiv a b
  | _, _ => False

/-- Snapshots equal except possibly for in-place timestamp conversions. -/
def sheetsTsEquiv (s s' : Sheets) : Prop :=
  optTableTsEquiv s.checklists_compilados s'.checklists_compilados ∧
  optTableTsEquiv s.checklists_L2015671 s'.checklists_L2015671 ∧
  optTableTsEquiv s.observations_L2015671 s'.observations_L2015671 ∧
  optTableTsEquiv s.checklist_feed s'.checklist_feed

/-! ## Concrete inputs used by the counterexamples and witnesses -/

/-- An instant on the minute (seconds zero). -/
def mkInst (mo d h mi : Nat) : Instant := ⟨mo, d, h, mi, 0⟩

/-- Window start: 00:00:00 on day 16 of month index 100. -/
def winS : Instant := ⟨100, 16, 0, 0, 0⟩

/-- Window end: 23:59:59 on day 16 of month index 100 (`time.max`). -/
def winE : Instant := ⟨100, 16, 23, 59, 59⟩

/-- Species A at 08:00 in checklist c1 by Ana. -/
def rowA : Row := ⟨some "A", none, .parsesTo (mkInst 100 16 8 0), none,
  some "c1", some "Ana", none, none, none⟩

/-- Species A at the same minute through a different checklist (c2, Bia). -/
def rowA2 : Row := ⟨some "A", none, .parsesTo (mkInst 100 16 8 0), none,
  some "c2", some "Bia", none, none, none⟩

/-- Species B at 08:05 in checklist c3 by Ana. -/
def rowB : Row := ⟨some "B", none, .parsesTo (mkInst 100 16 8 5), none,
  some "c3", some "Ana", none, none, none⟩

/-- A row whose timestamp text does not parse. -/
def rowBad : Row := ⟨some "X", none, .unparseable "not-a-date", none,
  some "c9", some "Cai", none, none, none⟩

/-- A row with a missing species cell. -/
def rowNoSp : Row := ⟨none, none, .parsesTo (mkInst 100 16 8 0), none,
  some "c1", some "Ana", none, none, none⟩

/-- The scenario table: `[(A,08:00), (A,08:00 via different checklist),
(B,08:05)]` on one day, loaded with a string-typed timestamp column. -/
def tabScenario : Table :=
  ⟨true, false, true, true, true, false, false, false, true, [rowA, rowA2, rowB]⟩

/-- Snapshot holding only the compiled sheet with the scenario rows. -/
def shScenario : Sheets := ⟨some tabScenario, none, none, none⟩

/-- Catalog row: species Zzz with numeric taxon order 1. -/
def rowZzz : Row := ⟨none, some "Zzz", .parsesTo (mkInst 100 16 8 0), none,
  none, none, none, none, some (.num 1)⟩

/-- Catalog row: species Aaa whose taxon order text does not parse. -/
def rowAaa : Row := ⟨none, some "Aaa", .parsesTo (mkInst 100 16 8 1), none,
  none, none, none, none, some (.nonNum "xyz")⟩

/-- Catalog table with a `taxonOrder` column containing one unparseable cell. -/
def tabCatalog : Table :=
  ⟨false, true, true, false, false, false, false, true, true, [rowZzz, rowAaa]⟩

/-- Snapshot for the catalog sorting counterexample. -/
def shCatalog : Sheets := ⟨some tabCatalog, none, none, none⟩

/-- Table with observer and timestamp columns but no species column. -/
def tabNoSpecies : Table :=
  ⟨false, false, true, false, true, false, false, false, true,
   [⟨none, none, .parsesTo (mkInst 100 16 8 0), none, none, some "Ana", none, none, none⟩,
    ⟨none, none, .parsesTo (mkInst 100 16 9 0), none, none, some "Ana", none, none, none⟩]⟩

/-- Snapshot for the missing-species-column counterexample. -/
def shNoSpecies : Sheets := ⟨some tabNoSpecies, none, none, none⟩

/-- Two observers with one species each; Zoe appears first in the input. -/
def tabTie : Table :=
  ⟨true, false, true, true, true, false, false, false, true,
   [⟨some "s1", none, .parsesTo (mkInst 100 16 8 0), none, some "c1", some "Zoe", none, none, none⟩,
    ⟨some "s2", none, .parsesTo (mkInst 100 16 8 1), none, some "c2", some "Ana", none, none, none⟩]⟩

/-- Snapshot for the ranking tie-order counterexample. -/
def shTie : Sheets := ⟨some tabTie, none, none, none⟩

/-- Table whose single observation has a missing species cell. -/
def tabMissingSp : Table :=
  ⟨true, false, true, true, true, false, false, false, true, [rowNoSp]⟩

/-- Snapshot for the missing-species-value counterexample. -/
def shMissingSp : Sheets := ⟨some tabMissingSp, none, none, none⟩

/-- The scenario rows with an unparseable-timestamp row mixed in. -/
def tabMixed : Table :=
  ⟨true, false, true, true, true, false, false, false, true, [rowA, rowBad, rowB]⟩

/-- Snapshot for the invalid-timestamp scenario. -/
def shMixed : Sheets := ⟨some tabMixed, none, none, none⟩

/-- One checklist id appearing at two different timestamps, with no
observer column. -/
def tabNoUser : Table :=
  ⟨true, false, true, true, false, false, false, false, true,
   [⟨some "A", none, .parsesTo (mkInst 100 16 8 0), none, some "c1", none, none, none, none⟩,
    ⟨some "B", none, .parsesTo (mkInst 100 16 9 0), none, some "c1", none, none, none, none⟩]⟩

/-- Snapshot for the placeholder-observer claim. -/
def shNoUser : Sheets := ⟨some tabNoUser, none, none, none⟩

/-! ## Basic lemmas about the conversion, the sorts and the deduplication -/

theorem convertObsDt_hasSpeciesCode (t : Table) :
    t.convertObsDt.hasSpeciesCode = t.hasSpeciesCode := by
  unfold Table.convertObsDt; split <;> rfl

theorem convertObsDt_hasCommonName (t : Table) :
    t.convertObsDt.hasCommonName = t.hasCommonName := by
  unfold Table.convertObsDt; split <;> rfl

theorem convertObsDt_hasObsDt (t : Table) : t.convertObsDt.hasObsDt = t.hasObsDt := by
  unfold Table.convertObsDt; split <;> rfl

theorem convertObsDt_hasSubId (t : Table) : t.convertObsDt.hasSubId = t.hasSubId := by
  unfold Table.convertObsDt; split <;> rfl

theorem convertObsDt_hasUserDisplayName (t : Table) :
    t.convertObsDt.hasUserDisplayName = t.hasUserDisplayName := by
  unfold Table.convertObsDt; split <;> rfl

theorem convertObsDt_hasScientificName (t : Table) :
    t.convertObsDt.hasScientificName = t.hasScientificName := by
  unfold Table.convertObsDt; split <;> rfl

theorem convertObsDt_hasFamilySciName (t : Table) :
    t.convertObsDt.hasFamilySciName = t.hasFamilySciName := by
  unfold Table.convertObsDt; split <;> rfl

theorem convertObsDt_hasTaxonOrder (t : Table) :
    t.convertObsDt.hasTaxonOrder = t.hasTaxonOrder := by
  unfold Table.convertObsDt; split <;> rfl

/-- After the coercion step the timestamp column is datetime-typed. -/
theorem convertObsDt_obsDtIsString (t : Table) : t.convertObsDt.obsDtIsString = false := by
  unfold Table.convertObsDt
  split
  · rfl
  · rename_i h; exact Bool.not_eq_true _ ▸ (by simpa using h)

theorem mem_ins {α : Type} (le : α → α → Bool) (a x : α) :
    ∀ l : List α, x ∈ ins le a l ↔ x = a ∨ x ∈ l
  | [] => by simp [ins]
  | b :: l => by
    simp only [ins]
    split
    · simp [List.mem_cons]
    · rw [List.mem_cons, List.mem_cons, mem_ins le a x l]
      tauto

theorem mem_insSort {α : Type} (le : α → α → Bool) (x : α) :
    ∀ l : List α, x ∈ insSort le l ↔ x ∈ l
  | [] => by simp [insSort]
  | a :: l => by
    rw [insSort, mem_ins, List.mem_cons, mem_insSort le x l]

theorem length_ins {α : Type} (le : α → α → Bool) (a : α) :
    ∀ l : List α, (ins le a l).length = l.length + 1
  | [] => rfl
  | b :: l => by
    simp only [ins]
    split
    · rfl
    · simp [List.length_cons, length_ins le a l]

theorem length_insSort {α : Type} (le : α → α → Bool) :
    ∀ l : List α, (insSort le l).length = l.length
  | [] => rfl
  | a :: l => by simp [insSort, length_ins, length_insSort le l]

/-- Sortedness of the stable insertion sort, for a total transitive
comparator. -/
theorem pairwise_ins {α : Type} (le : α → α → Bool)
    (tot : ∀ a b, le a b = true ∨ le b a = true)
    (tr : ∀ a b c, le a b = true → le b c = true → le a c = true)
    (a : α) : ∀ l : List α, l.Pairwise (fun x y => le x y = true) →
      (ins le a l).Pairwise (fun x y => le x y = true)
  | [], _ => by simp [ins]
  | b :: l, h => by
    rcases List.pairwise_cons.mp h with ⟨hb, hl⟩
    simp only [ins]
    split
    · rename_i hab
      refine List.pairwise_cons.mpr ⟨?_, h⟩
      intro y hy
      rcases List.mem_cons.mp hy with rfl | hy
      · exact hab
      · exact tr a b y hab (hb y hy)
    · rename_i hab
      have hba : le b a = true := by
        rcases tot a b with h1 | h1
        · exact absurd h1 hab
        · exact h1
      refine List.pairwise_cons.mpr ⟨?_, pairwise_ins le tot tr a l hl⟩
      intro y hy
      rcases (mem_ins le a y l).mp hy with rfl | hy
      · exact hba
      · exact hb y hy

theorem pairwise_insSort {α : Type} (le : α → α → Bool)
    (tot : ∀ a b, le a b = true ∨ le b a = true)
    (tr : ∀ a b c, le a b = true → le b c = true → le a c = true) :
    ∀ l : List α, (insSort le l).Pairwise (fun x y => le x y = true)
  | [] => by simp [insSort]
  | a :: l => pairwise_ins le tot tr a (insSort le l) (pairwise_insSort le tot tr l)

/-- Stability of the insertion sort: a pairwise relation `Q` of the input
survives sorting, provided `Q` flips for pairs the sort reorders (i.e.
whenever `le x y` fails). -/
theorem pairwise_ins_stable {α : Type} (le : α → α → Bool) (Q : α → α → Prop)
    (hflip : ∀ x y, Q x y → le x y = false → Q y x) (a : α) :
    ∀ l : List α, l.Pairwise Q → (∀ b ∈ l, Q a b) →
      (ins le a l).Pairwise Q
  | [], _, _ => by simp [ins]
  | b :: l, h, ha => by
    rcases List.pairwise_cons.mp h with ⟨hb, hl⟩
    simp only [ins]
    split
    · exact List.pairwise_cons.mpr ⟨fun y hy => ha y hy, h⟩
    · rename_i hab
      have hQba : Q b a := hflip a b (ha b (List.mem_cons_self b l)) (by
        exact Bool.not_eq_true _ ▸ (by simpa using hab))
      refine List.pairwise_cons.mpr ⟨?_, ?_⟩
      · intro y hy
        rcases (mem_ins le a y l).mp hy with rfl | hy
        · exact hQba
        · exact hb y hy
      · exact pairwise_ins_stable le Q hflip a l hl
          (fun c hc => ha c (List.mem_cons_of_mem b hc))

theorem pairwise_insSort_stable {α : Type} (le : α → α → Bool) (Q : α → α → Prop)
    (hflip : ∀ x y, Q x y → le x y = false → Q y x) :
    ∀ l : List α, l.Pairwise Q → (insSort le l).Pairwise Q
  | [], _ => by simp [insSort]
  | a :: l, h => by
    rcases List.pairwise_cons.mp h with ⟨ha, hl⟩
    exact pairwise_ins_stable le Q hflip a (insSort le l)
      (pairwise_insSort_stable le Q hflip l hl)
      (fun b hb => ha b ((mem_insSort le b l).mp hb))

/-! ## Lemmas about keep-first deduplication -/

theorem dedupByAux_sublist {α K : Type} [DecidableEq K] (k : α → K) :
    ∀ (l : List α) (seen : List K), List.Sublist (dedupByAux k l seen) l
  | [], _ => List.Sublist.refl []
  | a :: l, seen => by
    simp only [dedupByAux]
    split
    · exact (dedupByAux_sublist k l seen).cons a
    · exact (dedupByAux_sublist k l (k a :: seen)).cons₂ a

theorem dedupByAux_congr {α K : Type} [DecidableEq K] (k : α → K) :
    ∀ (l : List α) (s₁ s₂ : List K), (∀ x, x ∈ s₁ ↔ x ∈ s₂) →
      dedupByAux k l s₁ = dedupByAux k l s₂
  | [], _, _, _ => rfl
  | a :: l, s₁, s₂, h => by
    simp only [dedupByAux]
    by_cases hm : k a ∈ s₁
    · rw [if_pos hm, if_pos ((h (k a)).mp hm)]
      exact dedupByAux_congr k l s₁ s₂ h
    · rw [if_neg hm, if_neg (fun hc => hm ((h (k a)).mpr hc))]
      congr 1
      refine dedupByAux_congr k l (k a :: s₁) (k a :: s₂) ?_
      intro x
      simp only [List.mem_cons]
      exact or_congr Iff.rfl (h x)

/-- Keys kept by the scan are new: idempotence of `drop_duplicates`. -/
theorem dedupByAux_idem {α K : Type} [DecidableEq K] (k : α → K) :
    ∀ (l : List α) (seen : List K),
      dedupByAux k (dedupByAux k l seen) seen = dedupByAux k l seen
  | [], _ => rfl
  | a :: l, seen => by
    simp only [dedupByAux]
    split
    · exact dedupByAux_idem k l seen
    · rename_i hm
      simp only [dedupByAux, if_neg hm]
      congr 1
      exact dedupByAux_idem k l (k a :: seen)

/-- Characterisation of `drop_duplicates` keep-first: an element is kept iff
its key is new and it is the first element of the list carrying its key. -/
theorem mem_dedupByAux {α K : Type} [DecidableEq K] (k : α → K) (r : α) :
    ∀ (l : List α) (seen : List K),
      r ∈ dedupByAux k l seen ↔
        (k r ∉ seen ∧ l.find? (fun x => decide (k x = k r)) = some r)
  | [], seen => by simp [dedupByAux]
  | a :: l, seen => by
    simp only [dedupByAux]
    by_cases hka : k a = k r
    · rw [List.find?_cons_of_pos _ (by simp [hka])]
      by_cases hm : k a ∈ seen
      · rw [if_pos hm, mem_dedupByAux k r l seen]
        have hrseen : k r ∈ seen := hka ▸ hm
        constructor
        · rintro ⟨hns, _⟩; exact absurd hrseen hns
        · rintro ⟨hns, _⟩; exact absurd hrseen hns
      · rw [if_neg hm, List.mem_cons, mem_dedupByAux k r l (k a :: seen)]
        constructor
        · rintro (rfl | ⟨hns, hf⟩)
          · exact ⟨hka ▸ hm, rfl⟩
          · refine absurd ?_ hns
            rw [← hka]
            exact List.mem_cons_self _ _
        · rintro ⟨hns, ha⟩
          exact Or.inl (Option.some.inj ha).symm
    · rw [List.find?_cons_of_neg _ (by simp [hka])]
      by_cases hm : k a ∈ seen
      · rw [if_pos hm]
        exact mem_dedupByAux k r l seen
      · rw [if_neg hm, List.mem_cons, mem_dedupByAux k r l (k a :: seen)]
        constructor
        · rintro (rfl | ⟨hns, hf⟩)
          · exact absurd rfl hka
          · exact ⟨fun hc => hns (List.mem_cons_of_mem _ hc), hf⟩
        · rintro ⟨hns, hf⟩
          refine Or.inr ⟨?_, hf⟩
          intro hc
          rcases List.mem_cons.mp hc with h | h
          · exact hka h.symm
          · exact hns h

theorem mem_dedupBy {α K : Type} [DecidableEq K] (k : α → K) (r : α) (l : List α) :
    r ∈ dedupBy k l ↔ l.find? (fun x => decide (k x = k r)) = some r := by
  rw [dedupBy, mem_dedupByAux]
  simp

theorem dedupBy_idem {α K : Type} [DecidableEq K] (k : α → K) (l : List α) :
    dedupBy k (dedupBy k l) = dedupBy k l :=
  dedupByAux_idem k l []

theorem dedupBy_sublist {α K : Type} [DecidableEq K] (k : α → K) (l : List α) :
    List.Sublist (dedupBy k l) l :=
  dedupByAux_sublist k l []

theorem mem_dedupBy_of_mem {α K : Type} [DecidableEq K] (k : α → K) {r : α} {l : List α}
    (h : r ∈ dedupBy k l) : r ∈ l :=
  (dedupBy_sublist k l).mem h

/-- Kept rows carry keys not yet seen. -/
theorem dedupByAux_key_notmem {α K : Type} [DecidableEq K] (k : α → K) :
    ∀ (l : List α) (seen : List K) (a : α), a ∈ dedupByAux k l seen → k a ∉ seen
  | [], _, _, h => by simp [dedupByAux] at h
  | b :: l, seen, a, h => by
    simp only [dedupByAux] at h
    split at h
    · exact dedupByAux_key_notmem k l seen a h
    · rcases List.mem_cons.mp h with rfl | h
      · rename_i hm; exact hm
      · intro hc
        exact dedupByAux_key_notmem k l (k b :: seen) a h (List.mem_cons_of_mem _ hc)

theorem dedupByAux_pairwise {α K : Type} [DecidableEq K] (k : α → K) :
    ∀ (l : List α) (seen : List K),
      (dedupByAux k l seen).Pairwise (fun a b => k a ≠ k b)
  | [], _ => List.Pairwise.nil
  | a :: l, seen => by
    simp only [dedupByAux]
    split
    · exact dedupByAux_pairwise k l seen
    · refine List.pairwise_cons.mpr ⟨?_, dedupByAux_pairwise k l (k a :: seen)⟩
      intro b hb hc
      exact dedupByAux_key_notmem k l (k a :: seen) b hb (hc ▸ List.mem_cons_self _ _)

theorem distinctL_nodup {α : Type} [DecidableEq α] (l : List α) : (distinctL l).Nodup := by
  have := dedupByAux_pairwise (K := α) id l []
  exact this.imp fun h => h

theorem mem_distinctL {α : Type} [DecidableEq α] (x : α) (l : List α) :
    x ∈ distinctL l ↔ x ∈ l := by
  constructor
  · exact fun h => mem_dedupBy_of_mem id h
  · intro h
    rw [distinctL, mem_dedupBy]
    have hsome : (l.find? fun y => decide (id y = id x)).isSome := by
      rw [List.find?_isSome]
      exact ⟨x, h, by simp⟩
    rcases Option.isSome_iff_exists.mp hsome with ⟨y, hy⟩
    have := List.find?_some hy
    simp only [id_eq, decide_eq_true_eq] at this
    rw [hy, this]

/-- Extending `seen` with a key no element carries does not change the scan. -/
theorem dedupByAux_seen_irrelevant {α K : Type} [DecidableEq K] (k : α → K) (s0 : K) :
    ∀ (l : List α) (seen : List K), (∀ a ∈ l, k a ≠ s0) →
      dedupByAux k l (s0 :: seen) = dedupByAux k l seen
  | [], _, _ => rfl
  | a :: l, seen, h => by
    have hne : k a ≠ s0 := h a (List.mem_cons_self a l)
    simp only [dedupByAux, List.mem_cons]
    by_cases hm : k a ∈ seen
    · rw [if_pos (Or.inr hm), if_pos hm]
      exact dedupByAux_seen_irrelevant k s0 l seen fun b hb => h b (List.mem_cons_of_mem a hb)
    · rw [if_neg (by simp [hne, hm]), if_neg hm]
      congr 1
      have hswap : dedupByAux k l (k a :: s0 :: seen) = dedupByAux k l (s0 :: k a :: seen) :=
        dedupByAux_congr k l _ _ (by intro x; simp; tauto)
      rw [hswap]
      exact dedupByAux_seen_irrelevant k s0 l (k a :: seen)
        fun b hb => h b (List.mem_cons_of_mem a hb)

/-- If every key is already seen the scan keeps nothing. -/
theorem dedupByAux_all_seen {α K : Type} [DecidableEq K] (k : α → K) :
    ∀ (l : List α) (seen : List K), (∀ a ∈ l, k a ∈ seen) → dedupByAux k l seen = []
  | [], _, _ => rfl
  | a :: l, seen, h => by
    simp only [dedupByAux, if_pos (h a (List.mem_cons_self a l))]
    exact dedupByAux_all_seen k l seen fun b hb => h b (List.mem_cons_of_mem a hb)

/-- `unique()` of a constant non-empty column is the one value. -/
theorem distinctL_const {α : Type} [DecidableEq α] (c : α) :
    ∀ l : List α, l ≠ [] → (∀ x ∈ l, x = c) → distinctL l = [c]
  | [], h, _ => absurd rfl h
  | a :: l, _, hall => by
    have ha : a = c := hall a (List.mem_cons_self a l)
    subst ha
    show dedupByAux id (a :: l) [] = [a]
    rw [show dedupByAux id (a :: l) [] = a :: dedupByAux id l [id a] from by
      simp [dedupByAux]]
    rw [dedupByAux_all_seen]
    intro b hb
    simp only [id_eq, List.mem_singleton]
    exact hall b (List.mem_cons_of_mem a hb)

/-- Restricting to distinct values commutes with filtering the column. -/
theorem filter_dedupByAux_id {α : Type} [DecidableEq α] (p : α → Bool) :
    ∀ (l : List α) (seen : List α),
      (dedupByAux id l seen).filter p = dedupByAux id (l.filter p) seen
  | [], _ => rfl
  | a :: l, seen => by
    by_cases hm : a ∈ seen
    · rw [show dedupByAux id (a :: l) seen = dedupByAux id l seen from by
        simp [dedupByAux, hm]]
      rw [filter_dedupByAux_id p l seen]
      by_cases hp : p a = true
      · rw [List.filter_cons_of_pos hp]
        simp [dedupByAux, hm]
      · rw [List.filter_cons_of_neg (by simpa using hp)]
    · rw [show dedupByAux id (a :: l) seen = a :: dedupByAux id l (a :: seen) from by
        simp [dedupByAux, hm]]
      by_cases hp : p a = true
      · rw [List.filter_cons_of_pos hp, List.filter_cons_of_pos hp]
        rw [show dedupByAux id (a :: l.filter p) seen
            = a :: dedupByAux id (l.filter p) (a :: seen) from by simp [dedupByAux, hm]]
        rw [filter_dedupByAux_id p l (a :: seen)]
      · rw [List.filter_cons_of_neg (by simpa using hp),
          List.filter_cons_of_neg (by simpa using hp)]
        rw [filter_dedupByAux_id p l (a :: seen)]
        refine dedupByAux_seen_irrelevant id a (l.filter p) seen ?_
        intro b hb hba
        have hpb := List.of_mem_filter hb
        rw [id_eq] at hba
        rw [hba] at hpb
        exact hp hpb

theorem filter_distinctL {α : Type} [DecidableEq α] (p : α → Bool) (l : List α) :
    (distinctL l).filter p = distinctL (l.filter p) :=
  filter_dedupByAux_id p l []

/-- Distinct values through an injective map. -/
theorem dedupByAux_map_inj {α β : Type} [DecidableEq α] [DecidableEq β]
    (f : α → β) (hf : Function.Injective f) :
    ∀ (l : List α) (seen : List α),
      dedupByAux id (l.map f) (seen.map f) = (dedupByAux id l seen).map f
  | [], _ => rfl
  | a :: l, seen => by
    simp only [List.map_cons, dedupByAux, id_eq]
    by_cases hm : a ∈ seen
    · rw [if_pos (List.mem_map_of_mem f hm), if_pos hm]
      exact dedupByAux_map_inj f hf l seen
    · rw [if_neg (fun hc => hm (by
        rcases List.mem_map.mp hc with ⟨x, hx, hfx⟩
        exact hf hfx ▸ hx)), if_neg hm]
      rw [List.map_cons]
      congr 1
      have : (f a :: seen.map f) = (a :: seen).map f := rfl
      rw [this]
      exact dedupByAux_map_inj f hf l (a :: seen)

theorem distinctL_map_inj {α β : Type} [DecidableEq α] [DecidableEq β]
    (f : α → β) (hf : Function.Injective f) (l : List α) :
    distinctL (l.map f) = (distinctL l).map f :=
  dedupByAux_map_inj f hf l []

/-! ## The species loop of `get_event_stats` as a declarative computation -/

/-- The set-insertion loop is the fold of `set.add` over the rows kept by
the keep-first deduplication on the `(species, minute)` key. -/
theorem statsSpecies_eq_foldl (spOf : Row → Option String) :
    ∀ (l : List Row) (seen : List (String × Nat)) (acc : List (Option String)),
      statsSpecies spOf l seen acc =
        ((dedupByAux (fun r => (render (spOf r), minuteKeyNat r)) l seen).map spOf).foldl
          (fun a x => insertSet x a) acc
  | [], _, _ => rfl
  | r :: l, seen, acc => by
    simp only [statsSpecies, dedupByAux]
    split
    · exact statsSpecies_eq_foldl spOf l seen acc
    · simp only [List.map_cons, List.foldl_cons]
      exact statsSpecies_eq_foldl spOf l _ _

theorem insertSet_pos {α : Type} [DecidableEq α] {x : α} {acc : List α} (h : x ∈ acc) :
    insertSet x acc = acc := if_pos h

theorem insertSet_neg {α : Type} [DecidableEq α] {x : α} {acc : List α} (h : x ∉ acc) :
    insertSet x acc = acc ++ [x] := if_neg h

/-- Folding `set.add` builds exactly the first-encounter distinct values. -/
theorem foldl_insertSet_eq {α : Type} [DecidableEq α] :
    ∀ (l : List α) (acc : List α),
      l.foldl (fun a x => insertSet x a) acc = acc ++ dedupByAux id l acc
  | [], acc => by simp [dedupByAux]
  | x :: l, acc => by
    rw [List.foldl_cons]
    by_cases hm : x ∈ acc
    · rw [show insertSet x acc = acc from insertSet_pos hm]
      rw [show dedupByAux id (x :: l) acc = dedupByAux id l acc from by
        simp [dedupByAux, hm]]
      exact foldl_insertSet_eq l acc
    · rw [show insertSet x acc = acc ++ [x] from insertSet_neg hm]
      rw [show dedupByAux id (x :: l) acc = x :: dedupByAux id l (x :: acc) from by
        simp [dedupByAux, hm]]
      rw [foldl_insertSet_eq l (acc ++ [x])]
      rw [dedupByAux_congr id l (acc ++ [x]) (x :: acc) (by intro y; simp; tauto)]
      simp

/-- Closed form of the species loop: the number of distinct raw species
cells among the rows surviving `(species, minute)` keep-first dedup. -/
theorem statsSpecies_closed (spOf : Row → Option String) (l : List Row) :
    statsSpecies spOf l [] [] =
      distinctL ((dedupBy (fun r => (render (spOf r), minuteKeyNat r)) l).map spOf) := by
  rw [statsSpecies_eq_foldl, foldl_insertSet_eq]
  rfl

/-- Occurrence count of a label in a `filterMap`-projected column equals
the number of rows carrying exactly that value. -/
theorem count_filterMap {α β : Type} [DecidableEq β] (f : α → Option β) (x : β) :
    ∀ l : List α, ((l.filterMap f).count x) = (l.filter fun a => decide (f a = some x)).length
  | [] => rfl
  | a :: l => by
    rw [List.filterMap_cons, List.filter_cons]
    cases hfa : f a with
    | none =>
      simp only [reduceCtorEq, decide_False, Bool.false_eq_true, if_false]
      exact count_filterMap f x l
    | some b =>
      by_cases hbx : b = x
      · subst hbx
        rw [List.count_cons_self]
        rw [count_filterMap f b l]
        simp
      · have hcond : decide ((some b : Option β) = some x) = false := by
          simpa using hbx
        rw [hcond]
        simp only [Bool.false_eq_true, if_false]
        rw [List.count_cons_of_ne (fun h => hbx h.symm)]
        exact count_filterMap f x l

/-! ## Comparator facts and indexing -/

theorem cntDescLe_total (a b : String × Nat) : cntDescLe a b = true ∨ cntDescLe b a = true := by
  unfold cntDescLe
  simp only [Nat.ble_eq]
  exact Nat.le_total b.2 a.2

theorem cntDescLe_trans (a b c : String × Nat) :
    cntDescLe a b = true → cntDescLe b c = true → cntDescLe a c = true := by
  unfold cntDescLe
  simp only [Nat.ble_eq]
  exact fun h1 h2 => le_trans h2 h1

theorem strLe_total (a b : String) : strLe a b = true ∨ strLe b a = true := by
  unfold strLe
  simp only [decide_eq_true_eq]
  exact le_total _ _

theorem strLe_trans (a b c : String) :
    strLe a b = true → strLe b c = true → strLe a c = true := by
  unfold strLe
  simp only [decide_eq_true_eq]
  exact le_trans

theorem le_of_strLe {a b : String} (h : strLe a b = true) : a ≤ b := by
  rw [String.le_iff_toList_le]
  simpa [strLe] using h

theorem natBle_total (a b : Nat) : Nat.ble a b = true ∨ Nat.ble b a = true := by
  simp only [Nat.ble_eq]
  exact Nat.le_total a b

theorem natBle_trans (a b c : Nat) :
    Nat.ble a b = true → Nat.ble b c = true → Nat.ble a c = true := by
  simp only [Nat.ble_eq]
  exact Nat.le_trans

theorem optIntLe_total (a b : Option Int) : optIntLe a b = true ∨ optIntLe b a = true := by
  cases a <;> cases b <;> simp [optIntLe]
  exact le_total _ _

theorem optIntLe_trans (a b c : Option Int) :
    optIntLe a b = true → optIntLe b c = true → optIntLe a c = true := by
  cases a <;> cases b <;> cases c <;> simp [optIntLe]
  exact le_trans

theorem taxLe_total (a b : CatKey × Nat) : taxLe a b = true ∨ taxLe b a = true :=
  optIntLe_total _ _

theorem taxLe_trans (a b c : CatKey × Nat) :
    taxLe a b = true → taxLe b c = true → taxLe a c = true :=
  optIntLe_trans _ _ _

theorem nameLe_total (a b : CatKey × Nat) : nameLe a b = true ∨ nameLe b a = true :=
  strLe_total _ _

theorem nameLe_trans (a b c : CatKey × Nat) :
    nameLe a b = true → nameLe b c = true → nameLe a c = true :=
  strLe_trans _ _ _

theorem entDtDescLe_total (a b : String × Instant × String × Nat) :
    entDtDescLe a b = true ∨ entDtDescLe b a = true :=
  natBle_total _ _

theorem entDtDescLe_trans (a b c : String × Instant × String × Nat) :
    entDtDescLe a b = true → entDtDescLe b c = true → entDtDescLe a c = true :=
  fun h1 h2 => natBle_trans _ _ _ h2 h1

/-- In a duplicate-free list, positions given by `indexOf` respect the
list's own order. -/
theorem pairwise_indexOf_le {α : Type} [DecidableEq α] :
    ∀ l : List α, l.Nodup → l.Pairwise (fun a b => l.indexOf a ≤ l.indexOf b)
  | [], _ => List.Pairwise.nil
  | a :: l, h => by
    rcases List.nodup_cons.mp h with ⟨hna, hnd⟩
    refine List.pairwise_cons.mpr ⟨?_, ?_⟩
    · intro b _
      rw [List.indexOf_cons_self]
      exact Nat.zero_le _
    · refine (pairwise_indexOf_le l hnd).imp_of_mem ?_
      intro x y hx hy hxy
      have hxa : x ≠ a := fun hc => hna (hc ▸ hx)
      have hya : y ≠ a := fun hc => hna (hc ▸ hy)
      rw [List.indexOf_cons_ne l hxa.symm, List.indexOf_cons_ne l hya.symm]
      exact Nat.succ_le_succ hxy

/-! ## The in-place conversion changes only the timestamp column -/

theorem rowTsEquiv_refl (r : Row) : rowTsEquiv r r :=
  ⟨rfl, rfl, rfl, rfl, rfl, rfl, rfl, rfl⟩

theorem forall₂_rowTsEquiv_refl : ∀ l : List Row, List.Forall₂ rowTsEquiv l l
  | [] => List.Forall₂.nil
  | r :: l => List.Forall₂.cons (rowTsEquiv_refl r) (forall₂_rowTsEquiv_refl l)

theorem tableTsEquiv_refl (t : Table) : tableTsEquiv t t :=
  ⟨rfl, rfl, rfl, rfl, rfl, rfl, rfl, rfl, forall₂_rowTsEquiv_refl t.rows⟩

theorem tableTsEquiv_convert (t : Table) : tableTsEquiv t t.convertObsDt := by
  unfold Table.convertObsDt
  split
  · refine ⟨rfl, rfl, rfl, rfl, rfl, rfl, rfl, rfl, ?_⟩
    show List.Forall₂ rowTsEquiv t.rows (t.rows.map _)
    induction t.rows with
    | nil => exact List.Forall₂.nil
    | cons r l ih =>
      exact List.Forall₂.cons ⟨rfl, rfl, rfl, rfl, rfl, rfl, rfl, rfl⟩ ih
  · exact tableTsEquiv_refl t

theorem optTableTsEquiv_refl : ∀ o : Option Table, optTableTsEquiv o o
  | none => trivial
  | some t => tableTsEquiv_refl t

theorem sheetsTsEquiv_refl (sh : Sheets) : sheetsTsEquiv sh sh :=
  ⟨optTableTsEquiv_refl _, optTableTsEquiv_refl _, optTableTsEquiv_refl _,
   optTableTsEquiv_refl _⟩

theorem tableTsEquiv_if_convert (t : Table) (b : Bool) :
    tableTsEquiv t (if b then t.convertObsDt else t) := by
  split
  · exact tableTsEquiv_convert t
  · exact tableTsEquiv_refl t

/-- `get_event_stats` changes the snapshot only by the in-place timestamp
conversion on `checklists_compilados`. -/
theorem sheetsTsEquiv_event_stats (sh : Sheets) (s e : Instant) :
    sheetsTsEquiv sh (get_event_stats sh s e).2 := by
  unfold get_event_stats
  cases hc : sh.checklists_compilados with
  | none => exact sheetsTsEquiv_refl sh
  | some df0 =>
    refine ⟨?_, ?_, ?_, ?_⟩
    · show optTableTsEquiv sh.checklists_compilados (some _)
      rw [hc]
      exact tableTsEquiv_if_convert df0 _
    · exact optTableTsEquiv_refl _
    · exact optTableTsEquiv_refl _
    · exact optTableTsEquiv_refl _

theorem tableTsEquiv_latestSpeciesCore (df : Table) (s e : Instant) (limit : Nat) :
    tableTsEquiv df (latestSpeciesCore df s e limit).2 := by
  unfold latestSpeciesCore
  dsimp only
  repeat' split
  all_goals first
    | exact tableTsEquiv_refl df
    | exact tableTsEquiv_convert df

theorem sheetsTsEquiv_latest_species (sh : Sheets) (s e : Instant) (limit : Nat) :
    sheetsTsEquiv sh (get_latest_species sh s e limit).2 := by
  unfold get_latest_species
  cases hc : sh.checklists_compilados with
  | some df =>
    refine ⟨?_, ?_, ?_, ?_⟩
    · rw [hc]; exact tableTsEquiv_latestSpeciesCore df s e limit
    · exact optTableTsEquiv_refl _
    · exact optTableTsEquiv_refl _
    · exact optTableTsEquiv_refl _
  | none =>
    cases ho : sh.observations_L2015671 with
    | some df =>
      refine ⟨?_, ?_, ?_, ?_⟩
      · rw [hc]; trivial
      · exact optTableTsEquiv_refl _
      · rw [ho]; exact tableTsEquiv_latestSpeciesCore df s e limit
      · exact optTableTsEquiv_refl _
    | none => exact sheetsTsEquiv_refl sh

theorem tableTsEquiv_latestChecklistsCore (df : Table) (s e : Instant) (limit : Nat) :
    tableTsEquiv df (latestChecklistsCore df s e limit).2 := by
  unfold latestChecklistsCore
  dsimp only
  repeat' split
  all_goals first
    | exact tableTsEquiv_refl df
    | exact tableTsEquiv_convert df

theorem sheetsTsEquiv_latest_checklists (sh : Sheets) (s e : Instant) (limit : Nat) :
    sheetsTsEquiv sh (get_latest_checklists sh s e limit).2 := by
  unfold get_latest_checklists
  cases hc : sh.checklists_compilados with
  | some df =>
    refine ⟨?_, ?_, ?_, ?_⟩
    · rw [hc]; exact tableTsEquiv_latestChecklistsCore df s e limit
    · exact optTableTsEquiv_refl _
    · exact optTableTsEquiv_refl _
    · exact optTableTsEquiv_refl _
  | none =>
    cases ho : sh.observations_L2015671 with
    | some df =>
      refine ⟨?_, ?_, ?_, ?_⟩
      · rw [hc]; trivial
      · exact optTableTsEquiv_refl _
      · rw [ho]; exact tableTsEquiv_latestChecklistsCore df s e limit
      · exact optTableTsEquiv_refl _
    | none =>
      cases hf : sh.checklist_feed with
      | some df =>
        refine ⟨?_, ?_, ?_, ?_⟩
        · rw [hc]; trivial
        · exact optTableTsEquiv_refl _
        · rw [ho]; trivial
        · rw [hf]; exact tableTsEquiv_latestChecklistsCore df s e limit
      | none => exact sheetsTsEquiv_refl sh

theorem tableTsEquiv_monthlyCore (df : Table) (endMonth monthsBack : Nat) :
    tableTsEquiv df (monthlyCore df endMonth monthsBack).2 := by
  unfold monthlyCore
  dsimp only
  repeat' split
  all_goals first
    | exact tableTsEquiv_refl df
    | exact tableTsEquiv_convert df

theorem sheetsTsEquiv_monthly (sh : Sheets) (endMonth monthsBack : Nat) :
    sheetsTsEquiv sh (get_monthly_checklists_history sh endMonth monthsBack).2 := by
  unfold get_monthly_checklists_history
  cases hc : sh.checklists_compilados with
  | some df =>
    refine ⟨?_, ?_, ?_, ?_⟩
    · rw [hc]; exact tableTsEquiv_monthlyCore df endMonth monthsBack
    · exact optTableTsEquiv_refl _
    · exact optTableTsEquiv_refl _
    · exact optTableTsEquiv_refl _
  | none =>
    cases hl : sh.checklists_L2015671 with
    | some df =>
      refine ⟨?_, ?_, ?_, ?_⟩
      · rw [hc]; trivial
      · rw [hl]; exact tableTsEquiv_monthlyCore df endMonth monthsBack
      · exact optTableTsEquiv_refl _
      · exact optTableTsEquiv_refl _
    | none => exact sheetsTsEquiv_refl sh

/-! ## Invalid-timestamp rows and the window mask -/

/-- Converting after dropping the invalid rows yields the valid rows of the
converted table. -/
theorem convert_dropInvalid_rows (t : Table) :
    (t.dropInvalid).convertObsDt.rows
      = t.convertObsDt.rows.filter fun r => r.obsDtParsed.isSome := by
  unfold Table.dropInvalid Table.convertObsDt rowValid
  by_cases hs : t.obsDtIsString
  · simp only [hs, if_true, if_pos hs]
    rw [List.filter_map]
    rfl
  · simp only [hs, if_false, if_neg hs]
    rfl

/-- The window mask already excludes `NaT`, so pre-dropping invalid rows
changes nothing. -/
theorem mask_filter_isSome (s e : Instant) (l : List Row) :
    (l.filter fun r => r.obsDtParsed.isSome).filter (rowInWindow s e)
      = l.filter (rowInWindow s e) := by
  rw [List.filter_filter]
  refine List.filter_congr ?_
  intro r _
  cases hp : r.obsDtParsed with
  | none => simp [rowInWindow, hp]
  | some t => simp [rowInWindow, hp]

theorem maskRows_dropInvalid (t : Table) (s e : Instant) :
    t.dropInvalid.convertObsDt.maskRows s e = t.convertObsDt.maskRows s e := by
  unfold Table.maskRows
  rw [convert_dropInvalid_rows, mask_filter_isSome]

theorem dropInvalid_hasObsDt (t : Table) : t.dropInvalid.hasObsDt = t.hasObsDt := rfl

/-- Window filtering gives the same rows with or without the invalid rows. -/
theorem filter_data_rows_dropInvalid (t : Table) (s e : Instant) :
    (filter_data_by_date t.dropInvalid s e).rows = (filter_data_by_date t s e).rows := by
  unfold filter_data_by_date
  by_cases hobs : t.hasObsDt
  · by_cases he : t.rows.isEmpty
    · have hde : t.dropInvalid.rows.isEmpty := by
        unfold Table.dropInvalid
        cases ht : t.rows with
        | nil => rfl
        | cons a l => rw [ht] at he; exact absurd he (by simp)
      rw [if_pos (by simp [hde]), if_pos (by simp [he])]
    · by_cases hde : t.dropInvalid.rows.isEmpty
      · rw [if_pos (by simp [hde]), if_neg (by simp [he, hobs])]
        show ([] : List Row) = t.convertObsDt.rows.filter (rowInWindow s e)
        have h1 : t.dropInvalid.convertObsDt.rows = [] := by
          unfold Table.convertObsDt
          split
          · rw [List.isEmpty_iff] at hde
            show (t.dropInvalid.rows.map _) = []
            rw [hde]
            rfl
          · exact List.isEmpty_iff.mp hde
        have h2 := maskRows_dropInvalid t s e
        unfold Table.maskRows at h2
        rw [h1] at h2
        exact h2
      · rw [if_neg (by simp [hde, hobs, dropInvalid_hasObsDt]), if_neg (by simp [he, hobs])]
        exact maskRows_dropInvalid t s e
  · rw [if_pos (by simp [hobs, dropInvalid_hasObsDt]), if_pos (by simp [hobs])]

/-! ## Claim theorems -/

/-- C6: deduplication by `(species key, minute bucket)` — and by any key —
is idempotent (`dedupe(dedupe(S)) = dedupe(S)`), keeps a subsequence of the
input (preserving input order), and keeps exactly the first-encountered row
per key: a row is kept iff it is the first row of the input carrying its
key. -/
theorem aeg_c6_dedup_idempotent_first_kept {K : Type} [DecidableEq K]
    (k : Row → K) (l : List Row) :
    dedupBy k (dedupBy k l) = dedupBy k l
    ∧ List.Sublist (dedupBy k l) l
    ∧ (∀ r : Row, r ∈ dedupBy k l ↔ l.find? (fun x => decide (k x = k r)) = some r) :=
  ⟨dedupBy_idem k l, dedupBy_sublist k l, fun r => mem_dedupBy k r l⟩

/-- C1 counterexample: `get_event_stats` mutates the snapshot — on a table
whose timestamp column is string-typed, the post-call snapshot differs
from the pre-call snapshot (the `obsDt` column has been converted in
place). -/
theorem aeg_c1_counterexample :
    (get_event_stats shScenario winS winE).2 ≠ shScenario := by decide

/-- C1 (amended): the four functions that convert the shared timestamp
column in place change the snapshot only by that conversion — every table
keeps its columns, its row count and every non-timestamp cell; only the
`obsDt` dtype and parsed values may change. -/
theorem aeg_c1_amended (sh : Sheets) (s e : Instant)
    (lim1 lim2 endMonth monthsBack : Nat) :
    sheetsTsEquiv sh (get_event_stats sh s e).2
    ∧ sheetsTsEquiv sh (get_latest_species sh s e lim1).2
    ∧ sheetsTsEquiv sh (get_latest_checklists sh s e lim2).2
    ∧ sheetsTsEquiv sh (get_monthly_checklists_history sh endMonth monthsBack).2 :=
  ⟨sheetsTsEquiv_event_stats sh s e, sheetsTsEquiv_latest_species sh s e lim1,
   sheetsTsEquiv_latest_checklists sh s e lim2,
   sheetsTsEquiv_monthly sh endMonth monthsBack⟩

/-- C4: on the compiled sheet, `speciesCount` is the number of distinct
species cells among the window-filtered rows surviving
`(species, minute-bucket)` keep-first deduplication, while `checklistCount`
and `observerCount` are distinct counts over the filtered rows without
deduplication. -/
theorem aeg_c4_count_stats (sh : Sheets) (s e : Instant) (T : Table)
    (hc : sh.checklists_compilados = some T) (hobs : T.hasObsDt = true)
    (hsp : T.hasSpeciesCode = true) (hsub : T.hasSubId = true)
    (husr : T.hasUserDisplayName = true) :
    (get_event_stats sh s e).1.especies
        = (distinctL ((dedupBy (fun r => (render r.speciesCode, minuteKeyNat r))
            (T.convertObsDt.maskRows s e)).map fun r => r.speciesCode)).length
    ∧ (get_event_stats sh s e).1.listas
        = (distinctL ((T.convertObsDt.maskRows s e).map fun r => r.subId)).length
    ∧ (get_event_stats sh s e).1.observadores
        = (distinctL ((T.convertObsDt.maskRows s e).map fun r => r.userDisplayName)).length := by
  unfold get_event_stats
  simp only [hc]
  simp only [convertObsDt_hasObsDt, convertObsDt_obsDtIsString, convertObsDt_hasSpeciesCode,
    convertObsDt_hasSubId, convertObsDt_hasUserDisplayName, hobs, hsp, hsub, husr,
    Bool.not_false, Bool.and_true, if_true]
  refine ⟨?_, ?_, ?_⟩
  · rw [statsSpecies_closed]
  · trivial
  · trivial

/-- C4 witness: the scenario `[(A,08:00), (A,08:00 via different
checklist), (B,08:05)]` on one day satisfies the theorem's hypotheses and
yields `speciesCount = 2`. -/
theorem aeg_c4_witness :
    shScenario.checklists_compilados = some tabScenario
    ∧ tabScenario.hasObsDt = true ∧ tabScenario.hasSpeciesCode = true
    ∧ tabScenario.hasSubId = true ∧ tabScenario.hasUserDisplayName = true
    ∧ (get_event_stats shScenario winS winE).1.especies = 2
    ∧ (get_event_stats shScenario winS winE).1.especies
        = (distinctL ((dedupBy (fun r => (render r.speciesCode, minuteKeyNat r))
            (tabScenario.convertObsDt.maskRows winS winE)).map fun r => r.speciesCode)).length :=
  ⟨rfl, rfl, rfl, rfl, rfl, by decide,
   (aeg_c4_count_stats shScenario winS winE tabScenario rfl rfl rfl rfl rfl).1⟩

theorem dropInvalid_hasSpeciesCode (t : Table) :
    t.dropInvalid.hasSpeciesCode = t.hasSpeciesCode := rfl

theorem dropInvalid_hasCommonName (t : Table) :
    t.dropInvalid.hasCommonName = t.hasCommonName := rfl

theorem dropInvalid_hasSubId (t : Table) : t.dropInvalid.hasSubId = t.hasSubId := rfl

theorem dropInvalid_hasUserDisplayName (t : Table) :
    t.dropInvalid.hasUserDisplayName = t.hasUserDisplayName := rfl

theorem dropInvalid_hasScientificName (t : Table) :
    t.dropInvalid.hasScientificName = t.hasScientificName := rfl

theorem dropInvalid_hasFamilySciName (t : Table) :
    t.dropInvalid.hasFamilySciName = t.hasFamilySciName := rfl

theorem dropInvalid_hasTaxonOrder (t : Table) :
    t.dropInvalid.hasTaxonOrder = t.hasTaxonOrder := rfl

/-- When the window filter returns rows, it is the converted table
restricted to the window mask. -/
theorem filter_data_of_rows_ne (t : Table) (s e : Instant)
    (h : (filter_data_by_date t s e).rows ≠ []) :
    filter_data_by_date t s e
      = { t.convertObsDt with rows := t.convertObsDt.maskRows s e } := by
  unfold filter_data_by_date at h ⊢
  split at h
  · exact absurd rfl h
  · rename_i hcond
    rw [if_neg hcond]
    rfl

/-- `get_event_stats` results are unchanged when rows with invalid
timestamps are removed first. -/
theorem get_event_stats_fst_dropInvalid (sh : Sheets) (s e : Instant) (T : Table)
    (hc : sh.checklists_compilados = some T) (hobs : T.hasObsDt = true) :
    (get_event_stats { sh with checklists_compilados := some T.dropInvalid } s e).1
      = (get_event_stats sh s e).1 := by
  unfold get_event_stats
  simp only [hc]
  simp only [dropInvalid_hasObsDt, convertObsDt_hasObsDt, convertObsDt_obsDtIsString,
    dropInvalid_hasSpeciesCode, dropInvalid_hasCommonName, dropInvalid_hasSubId,
    dropInvalid_hasUserDisplayName, convertObsDt_hasSpeciesCode, convertObsDt_hasCommonName,
    convertObsDt_hasSubId, convertObsDt_hasUserDisplayName, hobs,
    Bool.not_false, Bool.and_true, if_true]
  rw [maskRows_dropInvalid]

/-- `get_daily_trend` results are unchanged when rows with invalid
timestamps are removed first. -/
theorem get_daily_trend_dropInvalid (sh : Sheets) (s e : Instant) (T : Table)
    (hc : sh.checklists_compilados = some T) :
    get_daily_trend { sh with checklists_compilados := some T.dropInvalid } s e
      = get_daily_trend sh s e := by
  unfold get_daily_trend
  have h1 : obsSource { sh with checklists_compilados := some T.dropInvalid }
      = some T.dropInvalid := rfl
  have h2 : obsSource sh = some T := by unfold obsSource; rw [hc]
  simp only [h1, h2]
  by_cases hobs : T.hasObsDt = true
  · simp only [dropInvalid_hasObsDt, hobs, Bool.not_true, Bool.false_eq_true, if_false]
    by_cases hrows : (filter_data_by_date T s e).rows = []
    · have hrows' : (filter_data_by_date T.dropInvalid s e).rows = [] := by
        rw [filter_data_rows_dropInvalid, hrows]
      rw [show (filter_data_by_date T.dropInvalid s e).rows.isEmpty = true by
            rw [hrows']; rfl,
          show (filter_data_by_date T s e).rows.isEmpty = true by rw [hrows]; rfl]
      rfl
    · have hrows' : (filter_data_by_date T.dropInvalid s e).rows ≠ [] := by
        rw [filter_data_rows_dropInvalid]; exact hrows
      rw [filter_data_of_rows_ne T s e hrows, filter_data_of_rows_ne T.dropInvalid s e hrows']
      simp only [maskRows_dropInvalid, dropInvalid_hasSpeciesCode, dropInvalid_hasCommonName,
        convertObsDt_hasSpeciesCode, convertObsDt_hasCommonName]
  · have hf : T.hasObsDt = false := by simpa using hobs
    simp [dropInvalid_hasObsDt, hf]

/-- C7: a row whose timestamp does not parse (`NaT` after coercion) is
excluded by the window filter for every window — the window mask only
passes rows with a defined timestamp — and removing such rows beforehand
changes neither `countStats` (`get_event_stats`) nor `dailyTrend`
(`get_daily_trend`): the valid rows aggregate exactly as without the
invalid ones, and no error interrupts processing. -/
theorem aeg_c7_invalid_excluded (sh : Sheets) (s e : Instant) (T : Table)
    (hc : sh.checklists_compilados = some T) (hobs : T.hasObsDt = true) :
    (∀ (df : Table) (r : Row), r ∈ (filter_data_by_date df s e).rows →
        rowInWindow s e r = true)
    ∧ (get_event_stats { sh with checklists_compilados := some T.dropInvalid } s e).1
        = (get_event_stats sh s e).1
    ∧ get_daily_trend { sh with checklists_compilados := some T.dropInvalid } s e
        = get_daily_trend sh s e := by
  refine ⟨?_, get_event_stats_fst_dropInvalid sh s e T hc hobs,
    get_daily_trend_dropInvalid sh s e T hc⟩
  intro df r hr
  unfold filter_data_by_date at hr
  split at hr
  · simp [Table.empty] at hr
  · exact (List.mem_filter.mp hr).2

/-- C7 witness: with `"not-a-date"` mixed between two valid rows, the
invalid row is ignored and the two valid rows aggregate correctly
(2 species, 2 checklists, 1 observer; a one-day trend with 2 species and
2 observations). -/
theorem aeg_c7_witness :
    shMixed.checklists_compilados = some tabMixed
    ∧ tabMixed.hasObsDt = true
    ∧ (get_event_stats { shMixed with checklists_compilados := some tabMixed.dropInvalid }
        winS winE).1 = (get_event_stats shMixed winS winE).1
    ∧ get_daily_trend { shMixed with checklists_compilados := some tabMixed.dropInvalid }
        winS winE = get_daily_trend shMixed winS winE
    ∧ (get_event_stats shMixed winS winE).1 = ⟨2, 2, 1⟩
    ∧ get_daily_trend shMixed winS winE = [(3216, 2, 2)] :=
  ⟨rfl, rfl, (aeg_c7_invalid_excluded shMixed winS winE tabMixed rfl rfl).2.1,
   (aeg_c7_invalid_excluded shMixed winS winE tabMixed rfl rfl).2.2,
   by decide, by decide⟩

/-- Counting distinct `(month, subId)` pairs at one month equals counting
distinct `subId` values among the rows of that month. -/
theorem monthly_pair_count (d : Table) (m : Nat) :
    ((distinctL (d.rows.map fun r => (r.obsDtParsed.map Instant.month, r.subId))).filter
        (fun p => p.1 == some m)).length
      = (distinctL ((d.rows.filter fun r =>
            r.obsDtParsed.map Instant.month == some m).map fun r => r.subId)).length := by
  rw [filter_distinctL]
  rw [List.filter_map]
  have hcong : ∀ r ∈ d.rows.filter
      ((fun p : Option Nat × Option String => p.1 == some m) ∘
        fun r => (r.obsDtParsed.map Instant.month, r.subId)),
      (r.obsDtParsed.map Instant.month, r.subId)
        = ((some m : Option Nat), r.subId) := by
    intro r hr
    have := (List.mem_filter.mp hr).2
    have hm : r.obsDtParsed.map Instant.month = some m := eq_of_beq this
    rw [hm]
  rw [List.map_congr_left hcong]
  have hinj : Function.Injective (Prod.mk (some m : Option Nat) (β := Option String)) :=
    fun x y hxy => by simpa using congrArg Prod.snd hxy
  rw [show (fun r : Row => ((some m : Option Nat), r.subId))
      = (Prod.mk (some m : Option Nat)) ∘ (fun r : Row => r.subId) from rfl]
  rw [← List.map_map, distinctL_map_inj _ hinj, List.length_map]
  rfl

/-- C8: `get_monthly_checklists_history` returns exactly `monthsBack + 1`
monthly entries, in strictly chronological order; every month of the
back-window appears explicitly (with count 0 when no checklist falls in
it), and each month's entry carries the number of distinct checklist ids
among **all** rows of the table dated to that month — no window
restriction is involved. -/
theorem aeg_c8_monthly_history (sh : Sheets) (endMonth monthsBack : Nat) (T : Table)
    (hc : sh.checklists_compilados = some T) (hobs : T.hasObsDt = true)
    (hsub : T.hasSubId = true) (hmb : monthsBack ≤ endMonth) :
    (get_monthly_checklists_history sh endMonth monthsBack).1.length = monthsBack + 1
    ∧ (get_monthly_checklists_history sh endMonth monthsBack).1.Pairwise
        (fun p q => p.1 < q.1)
    ∧ ∀ m, endMonth - monthsBack ≤ m → m ≤ endMonth →
        (m, (distinctL ((T.convertObsDt.rows.filter fun r =>
              r.obsDtParsed.map Instant.month == some m).map fun r => r.subId)).length)
          ∈ (get_monthly_checklists_history sh endMonth monthsBack).1 := by
  have hres : (get_monthly_checklists_history sh endMonth monthsBack).1
      = (List.range (monthsBack + 1)).map fun i =>
          (endMonth - monthsBack + i,
            ((distinctL (T.convertObsDt.rows.map fun r =>
                (r.obsDtParsed.map Instant.month, r.subId))).filter
              (fun p => p.1 == some (endMonth - monthsBack + i))).length) := by
    unfold get_monthly_checklists_history monthlyCore
    simp only [hc]
    simp only [hobs, hsub, Bool.and_self, Bool.not_true, Bool.false_eq_true, if_false]
  refine ⟨?_, ?_, ?_⟩
  · rw [hres, List.length_map, List.length_range]
  · rw [hres]
    refine List.pairwise_map.mpr ?_
    refine (List.pairwise_lt_range (monthsBack + 1)).imp ?_
    intro i j hij
    exact Nat.add_lt_add_left hij _
  · intro m h1 h2
    rw [hres]
    refine List.mem_map.mpr ⟨m - (endMonth - monthsBack), List.mem_range.mpr (by omega), ?_⟩
    have hms : endMonth - monthsBack + (m - (endMonth - monthsBack)) = m := by omega
    rw [hms]
    exact congrArg (Prod.mk m) (monthly_pair_count T.convertObsDt m)

/-- C8 witness: spanning three months ending at month index 100 with data
only in month 100 yields `[(98,0), (99,0), (100,3)]` — three entries,
zero months explicit, chronological. -/
theorem aeg_c8_witness :
    shScenario.checklists_compilados = some tabScenario
    ∧ (2 : Nat) ≤ 100
    ∧ (get_monthly_checklists_history shScenario 100 2).1.length = 2 + 1
    ∧ (get_monthly_checklists_history shScenario 100 2).1 = [(98, 0), (99, 0), (100, 3)] :=
  ⟨rfl, by decide,
   (aeg_c8_monthly_history shScenario 100 2 tabScenario rfl rfl rfl (by decide)).1,
   by decide⟩

/-- C10: when the chosen table has checklist-id and timestamp columns but
no observer column, `get_latest_checklists` still returns entries: every
returned entry carries the placeholder observer `"Observador"`, and the
grouping key is `(subId, obsDt, observer)` with the constant observer — so
the number of entries is the number of distinct `(subId, timestamp)` pairs
among the window-filtered rows (capped by `limit`), letting one checklist
id appear once per distinct timestamp. -/
theorem aeg_c10_placeholder_observer (sh : Sheets) (s e : Instant) (limit : Nat)
    (T : Table) (hc : sh.checklists_compilados = some T) (hobs : T.hasObsDt = true)
    (hsub : T.hasSubId = true) (huser : T.hasUserDisplayName = false) :
    (∀ en ∈ (get_latest_checklists sh s e limit).1, en.2.2.1 = "Observador")
    ∧ (get_latest_checklists sh s e limit).1.length
        = min limit (distinctL ((T.convertObsDt.maskRows s e).filterMap fun r =>
            match r.subId, r.obsDtParsed with
            | some sid, some t => some (sid, t)
            | _, _ => none)).length := by
  have hkey : ∀ r : Row, clKeyOf (fun _ => some "Observador") r
      = (match r.subId, r.obsDtParsed with
         | some sid, some t => some (sid, t)
         | _, _ => none).map fun p : String × Instant => (p.1, p.2, "Observador") := by
    intro r
    show (do
        let sid ← r.subId
        let t ← r.obsDtParsed
        let u ← (fun _ : Row => some "Observador") r
        pure (sid, t, u)) = _
    cases r.subId <;> cases r.obsDtParsed <;> rfl
  have hinj : Function.Injective
      (fun p : String × Instant => (p.1, p.2, "Observador")) := by
    intro x y hxy
    have h1 := congrArg Prod.fst hxy
    have h2 := congrArg (fun q => q.2.1) hxy
    exact Prod.ext h1 h2
  unfold get_latest_checklists
  simp only [hc]
  unfold latestChecklistsCore
  simp only [hobs, hsub, Bool.and_self, Bool.not_true, Bool.false_eq_true, if_false,
    convertObsDt_obsDtIsString, convertObsDt_hasUserDisplayName, huser, Bool.not_false,
    if_true]
  by_cases hemp : (T.convertObsDt.rows.filter (rowInWindow s e)).isEmpty
  · simp only [hemp, if_true]
    constructor
    · intro en hen
      exact absurd hen (List.not_mem_nil en)
    · show (0 : Nat) = min limit _
      have : T.convertObsDt.maskRows s e = [] := List.isEmpty_iff.mp hemp
      rw [this]
      simp [distinctL, dedupBy, dedupByAux]
  · simp only [hemp, Bool.false_eq_true, if_false]
    have hks : (T.convertObsDt.rows.filter (rowInWindow s e)).filterMap
          (clKeyOf fun _ => some "Observador")
        = ((T.convertObsDt.maskRows s e).filterMap fun r =>
            match r.subId, r.obsDtParsed with
            | some sid, some t => some (sid, t)
            | _, _ => none).map fun p : String × Instant => (p.1, p.2, "Observador") := by
      rw [List.map_filterMap]
      unfold Table.maskRows
      refine List.filterMap_congr ?_
      intro r _
      exact hkey r
    rw [hks]
    constructor
    · intro en hen
      have h1 : en ∈ insSort entDtDescLe ((distinctL (((T.convertObsDt.maskRows s e).filterMap
            fun r => match r.subId, r.obsDtParsed with
                     | some sid, some t => some (sid, t)
                     | _, _ => none).map fun p => (p.1, p.2, "Observador"))).map
            fun k => (k.1, k.2.1, k.2.2,
              ((((T.convertObsDt.maskRows s e).filterMap fun r =>
                  match r.subId, r.obsDtParsed with
                  | some sid, some t => some (sid, t)
                  | _, _ => none).map fun p => (p.1, p.2, "Observador")).count k))) :=
        (List.take_sublist limit _).mem hen
      have h2 := (mem_insSort _ _ _).mp h1
      rcases List.mem_map.mp h2 with ⟨k, hk, hke⟩
      have h3 := (mem_distinctL _ _).mp hk
      rcases List.mem_map.mp h3 with ⟨p, _, hpk⟩
      rw [← hke, ← hpk]
    · rw [List.length_take, length_insSort, List.length_map,
        distinctL_map_inj _ hinj, List.length_map]

/-- C10 witness: one checklist id at two timestamps in a table without an
observer column yields two entries, each with observer `"Observador"`. -/
theorem aeg_c10_witness :
    shNoUser.checklists_compilados = some tabNoUser
    ∧ tabNoUser.hasUserDisplayName = false
    ∧ (∀ en ∈ (get_latest_checklists shNoUser winS winE 100).1, en.2.2.1 = "Observador")
    ∧ (get_latest_checklists shNoUser winS winE 100).1.length = 2 :=
  ⟨rfl, rfl,
   (aeg_c10_placeholder_observer shNoUser winS winE 100 tabNoUser rfl rfl rfl rfl).1,
   by decide⟩

/-- Every ranking entry of `value_counts` is a value of the column with its
occurrence count. -/
theorem mem_valueCounts {p : String × Nat} {l : List String}
    (h : p ∈ valueCounts l) : p.1 ∈ l ∧ p.2 = l.count p.1 := by
  unfold valueCounts at h
  have h1 := (mem_insSort _ _ _).mp h
  rcases List.mem_map.mp h1 with ⟨x, hx, hxp⟩
  have hxl := (mem_distinctL _ _).mp hx
  cases hxp
  exact ⟨hxl, rfl⟩

/-- C3 counterexample: on a table with observer and timestamp columns but
no species-identity column, `get_top_observers` does **not** return an
empty result — it substitutes a per-observer row count (here two rows by
Ana become the entry `("Ana", 2)`). -/
theorem aeg_c3_counterexample :
    get_top_observers shNoSpecies winS winE 10 = [("Ana", 2)]
    ∧ get_top_observers shNoSpecies winS winE 10 ≠ [] := by
  constructor
  · decide
  · decide

/-- C3 (amended): when a required column cannot be resolved the functions
degrade to an empty result — except `get_top_observers`, which when only
the species column is missing silently substitutes a different
computation: each observer is ranked by their raw row count.
`get_top_species` is empty without a species column,
`get_top_observers` is empty when `obsDt` or the observer column is
missing, `get_top_observers_by_lists` and `get_latest_checklists` are
empty when their required columns are missing. -/
theorem aeg_c3_amended (sh : Sheets) (s e : Instant) (limit : Nat) :
    (∀ T, obsSource sh = some T → T.hasCommonName = false → T.hasSpeciesCode = false →
        get_top_species sh s e limit = []
        ∧ ∀ p ∈ get_top_observers sh s e limit,
            p.2 = ((filter_data_by_date T s e).rows.filter fun r =>
                decide (r.userDisplayName = some p.1)).length)
    ∧ (∀ T, obsSource sh = some T →
        (T.hasObsDt = false ∨ T.hasUserDisplayName = false) →
        get_top_observers sh s e limit = [])
    ∧ (∀ T, listsSource sh = some T →
        (T.hasObsDt = false ∨ T.hasUserDisplayName = false ∨ T.hasSubId = false) →
        get_top_observers_by_lists sh s e limit = [])
    ∧ (∀ T, sh.checklists_compilados = some T →
        (T.hasObsDt = false ∨ T.hasSubId = false) →
        (get_latest_checklists sh s e limit).1 = []) := by
  refine ⟨?_, ?_, ?_, ?_⟩
  · intro T hsrc hcn hsc
    constructor
    · unfold get_top_species topSpeciesPool
      simp only [hsrc]
      unfold speciesSel
      simp only [hcn, hsc, Bool.false_eq_true, if_false]
      by_cases hobs : T.hasObsDt = true
      · simp [hobs, valueCounts, distinctL, dedupBy, dedupByAux, insSort]
      · simp only [Bool.not_eq_true] at hobs
        simp [hobs, valueCounts, distinctL, dedupBy, dedupByAux, insSort]
    · intro p hp
      unfold get_top_observers at hp
      simp only [hsrc] at hp
      by_cases hguard : (T.hasObsDt && T.hasUserDisplayName) = true
      · rw [if_neg (by simp [hguard])] at hp
        by_cases hemp : (filter_data_by_date T s e).rows.isEmpty
        · rw [if_pos hemp] at hp
          exact absurd hp (List.not_mem_nil p)
        · rw [if_neg hemp] at hp
          have hfl : (filter_data_by_date T s e).hasSpeciesCode = false ∧
              (filter_data_by_date T s e).hasCommonName = false := by
            rw [filter_data_of_rows_ne T s e (fun hc => hemp (by rw [hc]; rfl))]
            exact ⟨(convertObsDt_hasSpeciesCode T).trans hsc,
              (convertObsDt_hasCommonName T).trans hcn⟩
          rw [hfl.1, hfl.2] at hp
          simp only [Bool.false_eq_true, if_false] at hp
          have h1 := (List.take_sublist limit _).mem hp
          have h2 := (mem_insSort _ _ _).mp h1
          have h3 := mem_valueCounts h2
          rw [h3.2, count_filterMap]
      · rw [if_pos (show (!(T.hasObsDt && T.hasUserDisplayName)) = true by
            cases hv : (T.hasObsDt && T.hasUserDisplayName)
            · rfl
            · exact absurd hv hguard)] at hp
        exact absurd hp (List.not_mem_nil p)
  · intro T hsrc hmiss
    unfold get_top_observers
    simp only [hsrc]
    rcases hmiss with h | h <;> simp [h]
  · intro T hsrc hmiss
    unfold get_top_observers_by_lists
    simp only [hsrc]
    rcases hmiss with h | h | h <;> simp [h]
  · intro T hc hmiss
    unfold get_latest_checklists latestChecklistsCore
    simp only [hc]
    rcases hmiss with h | h <;> simp [h]

/-- C3 witness: the no-species-column table satisfies the amended clause —
`get_top_species` is empty and every `get_top_observers` entry is a raw
row count per observer. -/
theorem aeg_c3_witness :
    get_top_species shNoSpecies winS winE 10 = []
    ∧ ∀ p ∈ get_top_observers shNoSpecies winS winE 10,
        p.2 = ((filter_data_by_date tabNoSpecies winS winE).rows.filter fun r =>
            decide (r.userDisplayName = some p.1)).length :=
  (aeg_c3_amended shNoSpecies winS winE 10).1 tabNoSpecies rfl rfl rfl

theorem mem_convertObsDt_rows {t : Table} {r : Row} (h : r ∈ t.convertObsDt.rows) :
    ∃ r₀ ∈ t.rows, r₀.speciesCode = r.speciesCode ∧ r₀.commonName = r.commonName := by
  unfold Table.convertObsDt at h
  split at h
  · rcases List.mem_map.mp h with ⟨r₀, hr₀, hmap⟩
    exact ⟨r₀, hr₀, by rw [← hmap], by rw [← hmap]⟩
  · exact ⟨r, h, rfl, rfl⟩

theorem mem_filter_data_rows {t : Table} {s e : Instant} {r : Row}
    (h : r ∈ (filter_data_by_date t s e).rows) : r ∈ t.convertObsDt.rows := by
  unfold filter_data_by_date at h
  split at h
  · exact absurd h (List.not_mem_nil r)
  · exact (List.mem_filter.mp h).1

theorem dedupBy_ne_nil {α K : Type} [DecidableEq K] (k : α → K) :
    ∀ l : List α, l ≠ [] → dedupBy k l ≠ []
  | [], h => absurd rfl h
  | a :: l, _ => by
    show dedupByAux k (a :: l) [] ≠ []
    simp [dedupByAux]

/-- C5 counterexample: a table whose only observation has a missing
species cell still yields `speciesCount = 1` — `get_event_stats` counts
the missing value as a distinct species rather than excluding the row. -/
theorem aeg_c5_counterexample :
    (∀ r ∈ tabMissingSp.rows, r.speciesCode = none)
    ∧ (get_event_stats shMissingSp winS winE).1.especies = 1 := by
  constructor
  · decide
  · decide

/-- C5 (amended): the ranking computations do exclude missing species —
every `get_top_species` label comes from a row whose species cell is
present — but `get_event_stats` does not: its species counter treats the
missing value as one distinct species (a table of in-window rows all
lacking a species yields `speciesCount = 1`, not `0`). -/
theorem aeg_c5_amended (sh : Sheets) (s e : Instant) (limit : Nat) (T : Table) :
    (obsSource sh = some T →
      ∀ p ∈ get_top_species sh s e limit,
        (∃ r ∈ T.rows, r.commonName = some p.1)
        ∨ (∃ r ∈ T.rows, r.speciesCode = some p.1))
    ∧ (sh.checklists_compilados = some T → T.hasObsDt = true →
        T.hasSpeciesCode = true → T.rows ≠ [] →
        (∀ r ∈ T.rows, r.speciesCode = none) →
        (∀ r ∈ T.convertObsDt.rows, rowInWindow s e r = true) →
        (get_event_stats sh s e).1.especies = 1) := by
  constructor
  · intro hsrc p hp
    have h1 := (List.take_sublist limit _).mem hp
    have h2 := (mem_valueCounts h1).1
    unfold topSpeciesPool at h2
    simp only [hsrc] at h2
    by_cases hobs : (!T.hasObsDt) = true
    · rw [if_pos hobs] at h2
      exact absurd h2 (List.not_mem_nil _)
    · rw [if_neg hobs] at h2
      unfold speciesSel at h2
      by_cases hcn : T.hasCommonName = true
      · simp only [hcn, if_true] at h2
        by_cases hemp : (filter_data_by_date T s e).rows.isEmpty
        · rw [if_pos hemp] at h2
          exact absurd h2 (List.not_mem_nil _)
        · rw [if_neg hemp] at h2
          rcases List.mem_filterMap.mp h2 with ⟨r, hr, hsp⟩
          have hr2 := mem_filter_data_rows (mem_dedupBy_of_mem _ hr)
          rcases mem_convertObsDt_rows hr2 with ⟨r₀, hr₀, _, hcnm⟩
          exact Or.inl ⟨r₀, hr₀, hcnm.trans hsp⟩
      · simp only [hcn, Bool.false_eq_true, if_false] at h2
        by_cases hsc : T.hasSpeciesCode = true
        · simp only [hsc, if_true] at h2
          by_cases hemp : (filter_data_by_date T s e).rows.isEmpty
          · rw [if_pos hemp] at h2
            exact absurd h2 (List.not_mem_nil _)
          · rw [if_neg hemp] at h2
            rcases List.mem_filterMap.mp h2 with ⟨r, hr, hsp⟩
            have hr2 := mem_filter_data_rows (mem_dedupBy_of_mem _ hr)
            rcases mem_convertObsDt_rows hr2 with ⟨r₀, hr₀, hscd, _⟩
            exact Or.inr ⟨r₀, hr₀, hscd.trans hsp⟩
        · simp only [hsc, Bool.false_eq_true, if_false] at h2
          exact absurd h2 (List.not_mem_nil _)
  · intro hc hobs hsc hne hall hwin
    unfold get_event_stats
    simp only [hc]
    simp only [hobs, if_true, convertObsDt_hasObsDt, convertObsDt_obsDtIsString,
      convertObsDt_hasSpeciesCode, hsc, Bool.not_false, Bool.and_true]
    show (statsSpecies (fun r => r.speciesCode)
        (T.convertObsDt.maskRows s e) [] []).length = 1
    have hmask : T.convertObsDt.maskRows s e = T.convertObsDt.rows :=
      List.filter_eq_self.mpr hwin
    rw [hmask, statsSpecies_closed]
    have hne2 : T.convertObsDt.rows ≠ [] := by
      unfold Table.convertObsDt
      split
      · simpa using hne
      · exact hne
    have hdne : dedupBy (fun r => (render r.speciesCode, minuteKeyNat r))
        T.convertObsDt.rows ≠ [] := dedupBy_ne_nil _ _ hne2
    have hmne : (dedupBy (fun r => (render r.speciesCode, minuteKeyNat r))
        T.convertObsDt.rows).map (fun r => r.speciesCode) ≠ [] := by
      simpa using hdne
    rw [distinctL_const none _ hmne ?_]
    · rfl
    · intro x hx
      rcases List.mem_map.mp hx with ⟨r, hr, hrx⟩
      have := mem_dedupBy_of_mem _ hr
      rcases mem_convertObsDt_rows this with ⟨r₀, hr₀, hspc, _⟩
      rw [← hrx, ← hspc]
      exact hall r₀ hr₀

/-- C5 witness: on the missing-species table the ranking labels all come
from present species cells (vacuously — the ranking is empty) while
`get_event_stats` reports one species. -/
theorem aeg_c5_witness :
    (∀ p ∈ get_top_species shMissingSp winS winE 10,
        (∃ r ∈ tabMissingSp.rows, r.commonName = some p.1)
        ∨ (∃ r ∈ tabMissingSp.rows, r.speciesCode = some p.1))
    ∧ (get_event_stats shMissingSp winS winE).1.especies = 1 :=
  ⟨(aeg_c5_amended shMissingSp winS winE 10 tabMissingSp).1 rfl,
   (aeg_c5_amended shMissingSp winS winE 10 tabMissingSp).2 rfl rfl rfl
     (by decide) (by decide) (by decide)⟩

/-- C2 counterexample: the catalog table contains a row whose `taxonOrder`
does not parse as a number, yet the catalog is **not** sorted
alphabetically — the numerically ordered species (`Zzz`, taxon 1) comes
first and the unparseable one (`Aaa`) is placed last, because
`errors='coerce'` turns the failure into `NaN` instead of raising into the
alphabetical fallback. -/
theorem aeg_c2_counterexample :
    (∃ r ∈ tabCatalog.rows, ∃ str, r.taxonOrder = some (.nonNum str))
    ∧ (get_all_species shCatalog winS winE).map (fun p => p.1.nome) = ["Zzz", "Aaa"]
    ∧ ¬ ((get_all_species shCatalog winS winE).Pairwise fun p q => p.1.nome ≤ q.1.nome) := by
  have hmap : (get_all_species shCatalog winS winE).map (fun p => p.1.nome)
      = ["Zzz", "Aaa"] := by decide
  refine ⟨⟨rowAaa, by decide, "xyz", rfl⟩, hmap, ?_⟩
  intro hpair
  have hpair2 : (["Zzz", "Aaa"] : List String).Pairwise (fun a b => a ≤ b) := by
    rw [← hmap]
    exact List.pairwise_map.mpr hpair
  have hle : ("Zzz" : String) ≤ "Aaa" :=
    (List.pairwise_cons.mp hpair2).1 "Aaa" (List.mem_singleton.mpr rfl)
  have : ¬ (("Zzz" : String) ≤ "Aaa") := by
    rw [String.le_iff_toList_le]
    decide
  exact this hle

/-- C2 (amended): when the chosen table has a `taxonOrder` column the
catalog is always sorted ascending by the coerced numeric taxon order with
unparseable values last (`taxLe`); a numeric parse failure on a row does
not switch the whole catalog to alphabetical order.  Only when the column
is absent is the catalog sorted alphabetically by species label. -/
theorem aeg_c2_amended (sh : Sheets) (s e : Instant) (T : Table)
    (hsrc : obsSource sh = some T) :
    (T.hasTaxonOrder = true →
      (get_all_species sh s e).Pairwise fun p q => taxLe p q = true)
    ∧ (T.hasTaxonOrder = false →
      (get_all_species sh s e).Pairwise fun p q => p.1.nome ≤ q.1.nome) := by
  have hflag : ¬(filter_data_by_date T s e).rows.isEmpty = true →
      (filter_data_by_date T s e).hasTaxonOrder = T.hasTaxonOrder := by
    intro hemp
    rw [filter_data_of_rows_ne T s e (fun hc => hemp (by rw [hc]; rfl))]
    exact convertObsDt_hasTaxonOrder T
  constructor
  · intro hT
    unfold get_all_species
    simp only [hsrc]
    by_cases hobs : (!T.hasObsDt) = true
    · rw [if_pos hobs]; exact List.Pairwise.nil
    · rw [if_neg hobs]
      by_cases hemp : (filter_data_by_date T s e).rows.isEmpty
      · rw [if_pos hemp]; exact List.Pairwise.nil
      · rw [if_neg hemp]
        cases hsel : speciesSel (filter_data_by_date T s e) with
        | none => simp only [hsel]; exact List.Pairwise.nil
        | some spOf =>
          simp only [hsel]
          rw [if_pos ((hflag hemp).trans hT)]
          exact pairwise_insSort taxLe taxLe_total taxLe_trans _
  · intro hT
    unfold get_all_species
    simp only [hsrc]
    by_cases hobs : (!T.hasObsDt) = true
    · rw [if_pos hobs]; exact List.Pairwise.nil
    · rw [if_neg hobs]
      by_cases hemp : (filter_data_by_date T s e).rows.isEmpty
      · rw [if_pos hemp]; exact List.Pairwise.nil
      · rw [if_neg hemp]
        cases hsel : speciesSel (filter_data_by_date T s e) with
        | none => simp only [hsel]; exact List.Pairwise.nil
        | some spOf =>
          simp only [hsel]
          rw [if_neg (by rw [hflag hemp, hT]; exact Bool.false_ne_true)]
          refine (pairwise_insSort nameLe nameLe_total nameLe_trans _).imp ?_
          intro a b hab
          exact le_of_strLe hab

/-- C2 witness: the catalog table with a `taxonOrder` column satisfies the
amended claim — its catalog is sorted by coerced numeric taxon order with
the unparseable entry last. -/
theorem aeg_c2_witness :
    obsSource shCatalog = some tabCatalog
    ∧ tabCatalog.hasTaxonOrder = true
    ∧ (get_all_species shCatalog winS winE).Pairwise fun p q => taxLe p q = true :=
  ⟨rfl, rfl, (aeg_c2_amended shCatalog winS winE tabCatalog rfl).1 rfl⟩

/-- A count-descending stable sort keeps any tie-breaking pairwise
property of its input (ties are pairs the sort never swaps). -/
theorem pairwise_tie_insSort_take (S : String × Nat → String × Nat → Prop)
    (l : List (String × Nat)) (n : Nat)
    (hb : l.Pairwise fun p q => p.2 = q.2 → S p q) :
    ((insSort cntDescLe l).take n).Pairwise fun p q => p.2 = q.2 → S p q := by
  refine List.Pairwise.sublist (List.take_sublist _ _) ?_
  refine pairwise_insSort_stable cntDescLe _ ?_ l hb
  intro x y _ hle heq
  exfalso
  have hble : Nat.ble y.2 x.2 = false := by simpa [cntDescLe] using hle
  have hc : Nat.ble y.2 x.2 = true := by
    rw [Nat.ble_eq]
    exact le_of_eq heq
  rw [hc] at hble
  exact absurd hble (by simp)

/-- Count-descending sortedness of a truncated stable sort. -/
theorem pairwise_desc_insSort_take (l : List (String × Nat)) (n : Nat) :
    ((insSort cntDescLe l).take n).Pairwise fun p q => q.2 ≤ p.2 := by
  refine List.Pairwise.sublist (List.take_sublist _ _) ?_
  refine (pairwise_insSort cntDescLe cntDescLe_total cntDescLe_trans _).imp ?_
  intro a b h
  simpa [cntDescLe, Nat.ble_eq] using h

/-- C9 counterexample: two observers with equal counts, Zoe first in the
input — the ranking lists Ana first (the `groupby` key order is
alphabetical), so ties do not follow first-encounter order. -/
theorem aeg_c9_counterexample :
    tabTie.rows.map (fun r => r.userDisplayName) = [some "Zoe", some "Ana"]
    ∧ get_top_observers shTie winS winE 10 = [("Ana", 1), ("Zoe", 1)]
    ∧ get_top_observers_by_lists shTie winS winE 10 = [("Ana", 1), ("Zoe", 1)] := by
  refine ⟨by decide, by decide, by decide⟩

/-- C9 (amended): the three ranking tables are sorted by count descending;
for equal counts `get_top_species` preserves the first-encounter order of
the deduplicated species values, while the two observer rankings order
ties alphabetically by observer name (inherited from the sorted `groupby`
keys), not by first encounter. -/
theorem aeg_c9_amended (sh : Sheets) (s e : Instant) (lim : Nat) (T : Table)
    (hsrc : obsSource sh = some T)
    (hspcol : T.hasSpeciesCode = true ∨ T.hasCommonName = true) :
    (get_top_species sh s e lim).Pairwise (fun p q => q.2 ≤ p.2)
    ∧ (get_top_observers sh s e lim).Pairwise (fun p q => q.2 ≤ p.2)
    ∧ (get_top_observers_by_lists sh s e lim).Pairwise (fun p q => q.2 ≤ p.2)
    ∧ (get_top_species sh s e lim).Pairwise (fun p q => p.2 = q.2 →
        (distinctL (topSpeciesPool sh s e)).indexOf p.1
          ≤ (distinctL (topSpeciesPool sh s e)).indexOf q.1)
    ∧ (get_top_observers sh s e lim).Pairwise (fun p q => p.2 = q.2 → p.1 ≤ q.1)
    ∧ (get_top_observers_by_lists sh s e lim).Pairwise
        (fun p q => p.2 = q.2 → p.1 ≤ q.1) := by
  refine ⟨?_, ?_, ?_, ?_, ?_, ?_⟩
  · exact pairwise_desc_insSort_take _ lim
  · unfold get_top_observers
    dsimp only
    repeat' split
    all_goals first
      | exact List.Pairwise.nil
      | exact pairwise_desc_insSort_take _ lim
  · unfold get_top_observers_by_lists
    dsimp only
    repeat' split
    all_goals first
      | exact List.Pairwise.nil
      | exact pairwise_desc_insSort_take _ lim
  · show ((insSort cntDescLe ((distinctL (topSpeciesPool sh s e)).map fun x =>
        (x, (topSpeciesPool sh s e).count x))).take lim).Pairwise _
    refine pairwise_tie_insSort_take _ _ lim ?_
    refine List.pairwise_map.mpr ?_
    refine (pairwise_indexOf_le _ (distinctL_nodup (topSpeciesPool sh s e))).imp ?_
    intro a b h _
    exact h
  · unfold get_top_observers
    simp only [hsrc]
    by_cases hguard : (!(T.hasObsDt && T.hasUserDisplayName)) = true
    · rw [if_pos hguard]
      exact List.Pairwise.nil
    · rw [if_neg hguard]
      by_cases hemp : (filter_data_by_date T s e).rows.isEmpty
      · rw [if_pos hemp]
        exact List.Pairwise.nil
      · rw [if_neg hemp]
        have hflags := filter_data_of_rows_ne T s e (fun hc => hemp (by rw [hc]; rfl))
        have hfs : (filter_data_by_date T s e).hasSpeciesCode = T.hasSpeciesCode := by
          rw [hflags]; exact convertObsDt_hasSpeciesCode T
        have hfc : (filter_data_by_date T s e).hasCommonName = T.hasCommonName := by
          rw [hflags]; exact convertObsDt_hasCommonName T
        by_cases hsc : (filter_data_by_date T s e).hasSpeciesCode = true
        · simp only [hsc, if_true]
          refine pairwise_tie_insSort_take _ _ lim ?_
          refine List.pairwise_map.mpr ?_
          refine (pairwise_insSort strLe strLe_total strLe_trans _).imp ?_
          intro a b h _
          exact le_of_strLe h
        · simp only [hsc, Bool.false_eq_true, if_false]
          by_cases hcn : (filter_data_by_date T s e).hasCommonName = true
          · simp only [hcn, if_true]
            refine pairwise_tie_insSort_take _ _ lim ?_
            refine List.pairwise_map.mpr ?_
            refine (pairwise_insSort strLe strLe_total strLe_trans _).imp ?_
            intro a b h _
            exact le_of_strLe h
          · exfalso
            rw [hfs] at hsc
            rw [hfc] at hcn
            rcases hspcol with h | h
            · exact hsc h
            · exact hcn h
  · unfold get_top_observers_by_lists
    cases hls : listsSource sh with
    | none => exact List.Pairwise.nil
    | some df =>
      simp only [hls]
      split
      · exact List.Pairwise.nil
      · split
        · exact List.Pairwise.nil
        · refine pairwise_tie_insSort_take _ _ lim ?_
          refine List.pairwise_map.mpr ?_
          refine (pairwise_insSort strLe strLe_total strLe_trans _).imp ?_
          intro a b h _
          exact le_of_strLe h

/-- C9 witness: on the tie table (species column present) all six amended
properties hold; in particular the observer tie comes out alphabetically. -/
theorem aeg_c9_witness :
    obsSource shTie = some tabTie
    ∧ (tabTie.hasSpeciesCode = true ∨ tabTie.hasCommonName = true)
    ∧ (get_top_observers shTie winS winE 10).Pairwise
        (fun p q => p.2 = q.2 → p.1 ≤ q.1)
    ∧ (get_top_observers shTie winS winE 10).Pairwise (fun p q => q.2 ≤ p.2) :=
  ⟨rfl, Or.inl rfl,
   (aeg_c9_amended shTie winS winE 10 tabTie rfl (Or.inl rfl)).2.2.2.2.1,
   (aeg_c9_amended shTie winS winE 10 tabTie rfl (Or.inl rfl)).2.1⟩
